import Mathlib

/-!
# Bragg-edge extraction wrapper (`generate_bragg_edges`)

A shallow embedding of `src/ncrystal_generate_bragg_edges.cpp`.

Modelling conventions.

* `double` values are rationals (`ℚ`) with exact arithmetic; every concrete
  input used below is dyadic and small, so the same values are produced by
  IEEE double arithmetic without rounding.  The quotient of line 57 is the
  rational quotient, which agrees with the `double` one only where the
  denominator `1 - fraction` is not zero: statements about the value stored
  by line 57 are made for fractions below `1`.
* `unsigned` values that are only compared (`Z`, `A`, the requested
  `atomic_z` / `atomic_a`) are natural numbers; `(unsigned)-1` is `UINT_MAX`.
  The counter `nfound` is incremented, so it is reduced modulo `2^32`.
* `int` values are integers; `static_cast<int>` and `2*n` wrap to 32 bits
  (`toInt32`).  Signed overflow is undefined in C++, so statements about the
  capacity check are made where `2*n` does not overflow (`PlanesFit`).
* The objects handed out by the NCrystal library (`Info`, `AtomData`,
  `DynamicInfo`, `HKLInfo`) are records of the values the wrapper reads from
  them.  `NC::wl2ekin` is a parameter of the model.
* The memory reachable through the output pointers is the record `Outputs`;
  the pointers are assumed not to alias.  A C++ exception leaves that memory
  as it is at the `throw`, so a run yields the exception (if any) together
  with the final memory.
-/

namespace NCrystalBragg

/-! ## Data read from the NCrystal library -/

/-- Values the wrapper reads from an `NC::AtomData`. -/
structure AtomData where
  Z : Nat
  A : Nat
  isElement : Bool
  isSingleIsotope : Bool
  isNaturalElement : Bool
  incoherentXS : ℚ
  coherentXS : ℚ
  freeScatteringXS : ℚ
deriving DecidableEq

/-- One entry of `info->getDynamicInfoList()`.  `isVDOS` is the outcome of
`dynamic_cast<const NC::DI_VDOS*>`, and `msd` is
`correspondingAtomInfo()->msd().value()`. -/
structure DynamicInfo where
  isVDOS : Bool
  fraction : ℚ
  atomData : AtomData
  msd : ℚ
deriving DecidableEq

/-- One entry of `info->hklList()`. -/
structure HKLInfo where
  dspacing : ℚ
  fsquared : ℚ
  multiplicity : Nat
deriving DecidableEq

/-- The material: `cfg.isSingleCrystal()` and what is read from `info`. -/
structure Info where
  isSingleCrystal : Bool
  getDynamicInfoList : List DynamicInfo
  hklList : List HKLInfo
  volume : ℚ
  n_atoms : ℚ

/-- Modelled from the spec: `Info::nHKL()` of the NCrystal library, the number
of entries of the plane list ("the reported plane count equals the number of
planes processed"). -/
def Info.nHKL (info : Info) : Nat := info.hklList.length

/-! ## Exceptions -/

/-- The NCrystal exception classes the wrapper throws. -/
inductive ErrorKind where
  | MissingInfo
  | CalcError
deriving DecidableEq

/-- A thrown exception: its class and its message. -/
structure NCError where
  kind : ErrorKind
  what : String
deriving DecidableEq

/-- The throw of line 38 (the spec's `ConfigurationError`). -/
def ConfigurationError : NCError :=
  ⟨ErrorKind.MissingInfo, "This NJOY plugin is not to be used with single crystals!!"⟩

/-- The throw of line 86 (the spec's `NotFoundError`). -/
def NotFoundError : NCError :=
  ⟨ErrorKind.MissingInfo, "The requested element cannot be found in the .NCMAT file!!"⟩

/-- The throw of line 88 (the spec's `AmbiguousMatchError`). -/
def AmbiguousMatchError : NCError :=
  ⟨ErrorKind.MissingInfo, "The requested element has multiple roles in the .NCMAT file!!"⟩

/-- The throw of line 97 (the spec's `CapacityError`). -/
def CapacityError : NCError :=
  ⟨ErrorKind.CalcError, "Number of bragg edges is bigger than maxb, increase maxb in leapr.f90"⟩

/-! ## Caller memory -/

/-- The memory behind the output pointers.  `data i` is the slot `data[i]` of
the caller's buffer. -/
structure Outputs where
  nbragg : Int
  data : Nat → ℚ
  c_incoherent_bound_xs : ℚ
  c_coherent_bound_xs : ℚ
  c_spr : ℚ
  c_ncrystal_msd : ℚ
  c_incoherent_fraction : ℚ
  c_fraction : ℚ
  c_redistribute_this : Int

/-- Outcome of a call: the exception thrown, if any, and the caller memory
after the call. -/
structure Run where
  thrown : Option NCError
  mem : Outputs

/-! ## Machine integers -/

/-- The value of `(unsigned)-1`. -/
def UINT_MAX : Nat := 4294967295

/-- Reduction of an integer to a 32-bit two's complement `int`. -/
def toInt32 (x : Int) : Int := (x + 2147483648) % 4294967296 - 2147483648

/-! ## The component scan (lines 41-82) -/

/-- Local variables of the scan together with the caller memory. -/
structure ScanState where
  nfound : Nat
  minimum_incoherent_contribution_Z : Nat
  minimum_incoherent_contribution_A : Nat
  out : Outputs

/-- Lines 52-66: the update of the ranking candidate.  The stored value is
that of line 57 for a fraction other than `1`; at fraction `1` the `double`
quotient is infinite or not a number, which a rational does not represent. -/
def rankStep (st : ScanState) (di : DynamicInfo) : ScanState :=
  if di.fraction * di.atomData.incoherentXS < st.out.c_incoherent_fraction
      ∨ st.out.c_incoherent_fraction = -1 then
    { st with
      out := { st.out with
        c_incoherent_fraction :=
          if di.fraction = 0 then 0
          else di.fraction / (1 - di.fraction) * di.atomData.incoherentXS }
      minimum_incoherent_contribution_Z := di.atomData.Z
      minimum_incoherent_contribution_A :=
        if di.atomData.isNaturalElement then 0 else di.atomData.A }
  else st

/-- Lines 68-80: the match test and the capture of the per-isotope values. -/
def matchStep (atomic_z atomic_a : Nat) (st : ScanState) (di : DynamicInfo) : ScanState :=
  if !di.atomData.isElement then st
  else if !(di.atomData.Z == atomic_z) then st
  else if (di.atomData.isSingleIsotope && di.atomData.A == atomic_a)
      || (di.atomData.isNaturalElement && atomic_a == 0) then
    { st with
      out := { st.out with
        c_incoherent_bound_xs := di.atomData.incoherentXS
        c_coherent_bound_xs := di.atomData.coherentXS
        c_spr := di.atomData.freeScatteringXS
        c_ncrystal_msd := di.msd
        c_fraction := di.fraction }
      nfound := (st.nfound + 1) % 4294967296 }
  else st

/-- Lines 46-82: the body of the loop over the dynamic-info list. -/
def scanBody (atomic_z atomic_a : Nat) (st : ScanState) (di : DynamicInfo) : ScanState :=
  if di.isVDOS then matchStep atomic_z atomic_a (rankStep st di) di
  else st

/-- Lines 41-45: the state in which the scan starts. -/
def scanInit (mem : Outputs) : ScanState :=
  ⟨0, UINT_MAX, UINT_MAX, { mem with c_incoherent_fraction := -1, c_redistribute_this := 0 }⟩

/-- Lines 41-82: the state after the loop over the dynamic-info list. -/
def scanAll (info : Info) (atomic_z atomic_a : Nat) (mem : Outputs) : ScanState :=
  info.getDynamicInfoList.foldl (scanBody atomic_z atomic_a) (scanInit mem)

/-- Lines 91-92: the redistribution mark. -/
def markRedistribute (atomic_z atomic_a : Nat) (st : ScanState) : Outputs :=
  if st.minimum_incoherent_contribution_Z = atomic_z
      ∧ st.minimum_incoherent_contribution_A = atomic_a then
    { st.out with c_redistribute_this := 1 }
  else st.out

/-! ## The plane loop (lines 101-109) -/

/-- Lines 104-108: the write position (offset of the `data` pointer) and the
buffer after one plane. -/
def tabulateBody (wl2ekin : ℚ → ℚ) (xsectfact : ℚ) (st : Nat × (Nat → ℚ)) (hkl : HKLInfo) :
    Nat × (Nat → ℚ) :=
  let wl := 2 * hkl.dspacing
  let E := wl2ekin wl
  let fdm := hkl.fsquared * (hkl.multiplicity : ℚ) * hkl.dspacing
  let d1 := Function.update st.2 st.1 E
  let d2 := Function.update d1 (st.1 + 1) (E * fdm * xsectfact * wl * wl)
  (st.1 + 2, d2)

/-- Lines 101-109: the buffer after the loop over the plane list. -/
def tabulate (wl2ekin : ℚ → ℚ) (info : Info) (data : Nat → ℚ) : Nat → ℚ :=
  let xsectfact := 0.5 / (info.volume * info.n_atoms)
  (info.hklList.foldl (tabulateBody wl2ekin xsectfact) (0, data)).2

/-! ## The entry point -/

/-- The function `generate_bragg_edges` applied to a loaded material. -/
def generate_bragg_edges (wl2ekin : ℚ → ℚ) (info : Info) (maxb : Int)
    (atomic_z atomic_a : Nat) (mem : Outputs) : Run :=
  if info.isSingleCrystal then ⟨some ConfigurationError, mem⟩
  else
    let st := scanAll info atomic_z atomic_a mem
    if st.nfound = 0 then ⟨some NotFoundError, st.out⟩
    else if st.nfound > 1 then ⟨some AmbiguousMatchError, st.out⟩
    else
      let out1 := markRedistribute atomic_z atomic_a st
      let n := toInt32 (info.nHKL : Int)
      if ¬ (maxb > toInt32 (2 * n)) then ⟨some CapacityError, out1⟩
      else ⟨none, { out1 with nbragg := n, data := tabulate wl2ekin info out1.data }⟩

/-! ## Vocabulary of the claims -/

/-- The requested-species match predicate on a scanned component: element
type, `Z` equal to the request, and single isotope with `A` equal to the
request or natural element with a request of `A = 0`. -/
def matchesRequest (atomic_z atomic_a : Nat) (di : DynamicInfo) : Bool :=
  di.atomData.isElement && (di.atomData.Z == atomic_z)
    && ((di.atomData.isSingleIsotope && di.atomData.A == atomic_a)
      || (di.atomData.isNaturalElement && atomic_a == 0))

/-- The components the loop processes: those for which the `DI_VDOS` cast
succeeds. -/
def scanned (info : Info) : List DynamicInfo :=
  info.getDynamicInfoList.filter (fun di => di.isVDOS)

/-- Number of scanned components satisfying the match predicate. -/
def matchCount (info : Info) (atomic_z atomic_a : Nat) : Nat :=
  (scanned info).countP (matchesRequest atomic_z atomic_a)

/-- The component list is short enough for the 32-bit counter `nfound` not
to wrap around. -/
def ComponentsFit (info : Info) : Prop :=
  info.getDynamicInfoList.length < 4294967296

instance (info : Info) : Decidable (ComponentsFit info) := by
  unfold ComponentsFit; infer_instance

/-- The plane list is short enough for `2 * n` to be computed in `int`
without overflow. -/
def PlanesFit (info : Info) : Prop :=
  2 * info.hklList.length < 2147483648

instance (info : Info) : Decidable (PlanesFit info) := by
  unfold PlanesFit; infer_instance

/-- The value is representable in the type `int` of `*maxb`. -/
def IsInt32 (x : Int) : Prop := -2147483648 ≤ x ∧ x < 2147483648

instance (x : Int) : Decidable (IsInt32 x) := by
  unfold IsInt32; infer_instance

/-- A component the loop processes and counts as a match. -/
def scanMatch (atomic_z atomic_a : Nat) (di : DynamicInfo) : Bool :=
  di.isVDOS && matchesRequest atomic_z atomic_a di

/-- The five per-isotope outputs held in the caller memory. -/
def captured (o : Outputs) : ℚ × ℚ × ℚ × ℚ × ℚ :=
  (o.c_incoherent_bound_xs, o.c_coherent_bound_xs, o.c_spr, o.c_ncrystal_msd, o.c_fraction)

/-- The five per-isotope values of a component. -/
def capturedOf (di : DynamicInfo) : ℚ × ℚ × ℚ × ℚ × ℚ :=
  (di.atomData.incoherentXS, di.atomData.coherentXS, di.atomData.freeScatteringXS,
    di.msd, di.fraction)

/-! ## Concrete inputs -/

/-- Caller memory before a call, every scalar holding `7` and the buffer
holding `7` in every slot. -/
def memBefore : Outputs := ⟨7, fun _ => 7, 7, 7, 7, 7, 7, 7, 7⟩

/-- Natural hydrogen as in the example of the spec: fraction `0.5`,
incoherent `80`, coherent `1`, free `81`. -/
def hydrogen : DynamicInfo := ⟨true, 1/2, ⟨1, 0, true, false, true, 80, 1, 81⟩, 1/4⟩

/-- The material of the spec's example: one component, one plane
(`d = 1`, `F² = 2`, multiplicity `4`), volume `100`, two atoms per cell. -/
def specExample : Info := ⟨false, [hydrogen], [⟨1, 2, 4⟩], 100, 2⟩

/-- The same material with natural hydrogen present in two roles. -/
def twoHydrogens : Info := ⟨false, [hydrogen, hydrogen], [⟨1, 2, 4⟩], 100, 2⟩

/-- The same material flagged as a single crystal. -/
def singleCrystalExample : Info := ⟨true, [hydrogen], [⟨1, 2, 4⟩], 100, 2⟩

/-- A component with fraction `0.5` and incoherent cross section `2`
(natural element, `Z = 1`). -/
def lightComponent : DynamicInfo := ⟨true, 1/2, ⟨1, 0, true, false, true, 2, 1, 3⟩, 1/4⟩

/-- A component with fraction `0.5` and incoherent cross section `3`
(natural element, `Z = 8`). -/
def heavyComponent : DynamicInfo := ⟨true, 1/2, ⟨8, 0, true, false, true, 3, 1, 4⟩, 1/8⟩

/-- A material whose two components have normalized incoherent
contributions `2` and `3`, in this order. -/
def rankingExample : Info := ⟨false, [lightComponent, heavyComponent], [⟨1, 2, 4⟩], 100, 2⟩

/-! ## The ranking in the words of the spec -/

/-- The normalized incoherent contribution of a component as the spec
defines it: `0` for a zero fraction, else `f / (1 - f) * incoherentXS`. -/
def normalizedContribution (di : DynamicInfo) : ℚ :=
  if di.fraction = 0 then 0
  else di.fraction / (1 - di.fraction) * di.atomData.incoherentXS

/-- The `(Z, A)` of a component, `A` read as `0` for a natural element. -/
def speciesOf (di : DynamicInfo) : Nat × Nat :=
  (di.atomData.Z, if di.atomData.isNaturalElement then 0 else di.atomData.A)

/-- The arg-min of the normalized incoherent contribution as the spec
describes it: the first component, in list order, attaining the least
value. -/
def specArgMin : List DynamicInfo → Option DynamicInfo
  | [] => none
  | d :: ds =>
    match specArgMin ds with
    | none => some d
    | some e => if normalizedContribution e < normalizedContribution d then some e else some d

/-- The least normalized incoherent contribution of a list of components. -/
def specMinimum (l : List DynamicInfo) : Option ℚ :=
  (l.map normalizedContribution).min?

/-- The ranking held by a scan state: the stored value and the recorded
candidate `(Z, A)`. -/
def ranking (st : ScanState) : ℚ × Nat × Nat :=
  (st.out.c_incoherent_fraction, st.minimum_incoherent_contribution_Z,
    st.minimum_incoherent_contribution_A)

/-- The ranking a component leaves when it becomes the candidate: its
normalized incoherent contribution and its `(Z, A)`. -/
def rankingOf (di : DynamicInfo) : ℚ × Nat × Nat :=
  (normalizedContribution di, speciesOf di)

/-- The test of lines 52-53 against the stored value. -/
def replaces (stored : ℚ) (di : DynamicInfo) : Prop :=
  di.fraction * di.atomData.incoherentXS < stored ∨ stored = -1

instance (stored : ℚ) (di : DynamicInfo) : Decidable (replaces stored di) := by
  unfold replaces; infer_instance

/-- A material with the given component list in place of its own. -/
def withComponents (info : Info) (l : List DynamicInfo) : Info :=
  { info with getDynamicInfoList := l }

/-- The species is not classified both as a single isotope and as a natural
element. -/
def ExclusiveClass (di : DynamicInfo) : Prop :=
  ¬ (di.atomData.isSingleIsotope = true ∧ di.atomData.isNaturalElement = true)

instance (di : DynamicInfo) : Decidable (ExclusiveClass di) := by
  unfold ExclusiveClass; infer_instance

/-- A twin of `lightComponent` with `Z = 8`: same fraction `0.5` and same
incoherent cross section `2`. -/
def lightTwin : DynamicInfo := ⟨true, 1/2, ⟨8, 0, true, false, true, 2, 1, 3⟩, 1/8⟩

/-- A material whose two components have the same normalized incoherent
contribution `2`. -/
def tieExample : Info := ⟨false, [lightComponent, lightTwin], [⟨1, 2, 4⟩], 100, 2⟩

/-- A component that is not element-type (no definite `Z`), with fraction
`0.5` and incoherent cross section `2`. -/
def mixture : DynamicInfo := ⟨true, 1/2, ⟨0, 0, false, false, false, 2, 1, 3⟩, 1/8⟩

/-- The hydrogen of the spec's example followed by the mixture. -/
def mixtureExample : Info := ⟨false, [hydrogen, mixture], [⟨1, 2, 4⟩], 100, 2⟩

/-- Another caller memory, every scalar and every buffer slot holding `0`. -/
def memOther : Outputs := ⟨0, fun _ => 0, 0, 0, 0, 0, 0, 0, 0⟩

/-- The material with the components that are not element-type removed. -/
def elementsOnly (info : Info) : Info :=
  withComponents info (info.getDynamicInfoList.filter (fun di => di.atomData.isElement))

/-! ## Lemmas on the scan -/

theorem rankStep_nfound (st : ScanState) (di : DynamicInfo) :
    (rankStep st di).nfound = st.nfound := by
  unfold rankStep; split <;> rfl

theorem rankStep_captured (st : ScanState) (di : DynamicInfo) :
    captured (rankStep st di).out = captured st.out := by
  unfold rankStep; split <;> rfl

theorem rankStep_nbragg (st : ScanState) (di : DynamicInfo) :
    (rankStep st di).out.nbragg = st.out.nbragg := by
  unfold rankStep; split <;> rfl

theorem rankStep_data (st : ScanState) (di : DynamicInfo) :
    (rankStep st di).out.data = st.out.data := by
  unfold rankStep; split <;> rfl

theorem matchStep_nfound (z a : Nat) (st : ScanState) (di : DynamicInfo) :
    (matchStep z a st di).nfound
      = if matchesRequest z a di then (st.nfound + 1) % 4294967296 else st.nfound := by
  unfold matchStep matchesRequest
  cases di.atomData.isElement <;> cases (di.atomData.Z == z) <;>
    cases ((di.atomData.isSingleIsotope && di.atomData.A == a)
      || (di.atomData.isNaturalElement && a == 0)) <;> simp

theorem matchStep_captured (z a : Nat) (st : ScanState) (di : DynamicInfo) :
    captured (matchStep z a st di).out
      = if matchesRequest z a di then capturedOf di else captured st.out := by
  unfold matchStep matchesRequest
  cases di.atomData.isElement <;> cases (di.atomData.Z == z) <;>
    cases ((di.atomData.isSingleIsotope && di.atomData.A == a)
      || (di.atomData.isNaturalElement && a == 0)) <;> simp [captured, capturedOf]

theorem matchStep_nbragg (z a : Nat) (st : ScanState) (di : DynamicInfo) :
    (matchStep z a st di).out.nbragg = st.out.nbragg := by
  unfold matchStep; split_ifs <;> rfl

theorem matchStep_data (z a : Nat) (st : ScanState) (di : DynamicInfo) :
    (matchStep z a st di).out.data = st.out.data := by
  unfold matchStep; split_ifs <;> rfl

theorem scanBody_nfound (z a : Nat) (st : ScanState) (di : DynamicInfo) :
    (scanBody z a st di).nfound
      = if scanMatch z a di then (st.nfound + 1) % 4294967296 else st.nfound := by
  unfold scanBody scanMatch
  cases di.isVDOS <;> simp [matchStep_nfound, rankStep_nfound]

theorem scanBody_captured (z a : Nat) (st : ScanState) (di : DynamicInfo) :
    captured (scanBody z a st di).out
      = if scanMatch z a di then capturedOf di else captured st.out := by
  unfold scanBody scanMatch
  cases di.isVDOS <;> simp [matchStep_captured, rankStep_captured]

theorem scanBody_nbragg (z a : Nat) (st : ScanState) (di : DynamicInfo) :
    (scanBody z a st di).out.nbragg = st.out.nbragg := by
  unfold scanBody; split
  · rw [matchStep_nbragg, rankStep_nbragg]
  · rfl

theorem scanBody_data (z a : Nat) (st : ScanState) (di : DynamicInfo) :
    (scanBody z a st di).out.data = st.out.data := by
  unfold scanBody; split
  · rw [matchStep_data, rankStep_data]
  · rfl

theorem foldl_scan_nfound (z a : Nat) (l : List DynamicInfo) :
    ∀ st : ScanState, st.nfound < 4294967296 →
      (l.foldl (scanBody z a) st).nfound
        = (st.nfound + l.countP (scanMatch z a)) % 4294967296 := by
  induction l with
  | nil => intro st h; simp; omega
  | cons x xs ih =>
    intro st h
    rw [List.foldl_cons, ih _ (by rw [scanBody_nfound]; split <;> omega), scanBody_nfound,
      List.countP_cons]
    split
    · omega
    · simp only [if_false, Nat.add_zero]

theorem foldl_scan_captured (z a : Nat) (l : List DynamicInfo) :
    ∀ st : ScanState,
      captured (l.foldl (scanBody z a) st).out
        = ((l.filter (scanMatch z a)).map capturedOf).getLastD (captured st.out) := by
  induction l with
  | nil => intro st; simp
  | cons x xs ih =>
    intro st
    rw [List.foldl_cons, ih, scanBody_captured, List.filter_cons]
    split
    · rw [List.map_cons, List.getLastD_cons]
    · rfl

theorem foldl_scan_nbragg (z a : Nat) (l : List DynamicInfo) :
    ∀ st : ScanState, (l.foldl (scanBody z a) st).out.nbragg = st.out.nbragg := by
  induction l with
  | nil => intro st; rfl
  | cons x xs ih => intro st; rw [List.foldl_cons, ih, scanBody_nbragg]

theorem foldl_scan_data (z a : Nat) (l : List DynamicInfo) :
    ∀ st : ScanState, (l.foldl (scanBody z a) st).out.data = st.out.data := by
  induction l with
  | nil => intro st; rfl
  | cons x xs ih => intro st; rw [List.foldl_cons, ih, scanBody_data]

theorem countP_scanMatch (info : Info) (z a : Nat) :
    info.getDynamicInfoList.countP (scanMatch z a) = matchCount info z a := by
  unfold matchCount scanned
  rw [List.countP_filter]
  congr 1
  funext di
  simp [scanMatch, Bool.and_comm]

theorem matchCount_le (info : Info) (z a : Nat) :
    matchCount info z a ≤ info.getDynamicInfoList.length := by
  rw [← countP_scanMatch]; exact List.countP_le_length _

/-- The counter after the scan is the number of matching scanned components. -/
theorem scanAll_nfound (info : Info) (z a : Nat) (mem : Outputs) (hfit : ComponentsFit info) :
    (scanAll info z a mem).nfound = matchCount info z a := by
  have hle := matchCount_le info z a
  unfold ComponentsFit at hfit
  unfold scanAll
  rw [foldl_scan_nfound z a _ _ (by simp [scanInit]), countP_scanMatch]
  simp only [scanInit]
  omega

/-- The exception of a run, by cases on the checks of the code. -/
theorem thrown_eq (wl2ekin : ℚ → ℚ) (info : Info) (maxb : Int) (z a : Nat) (mem : Outputs) :
    (generate_bragg_edges wl2ekin info maxb z a mem).thrown =
      if info.isSingleCrystal then some ConfigurationError
      else if (scanAll info z a mem).nfound = 0 then some NotFoundError
      else if (scanAll info z a mem).nfound > 1 then some AmbiguousMatchError
      else if ¬ (maxb > toInt32 (2 * toInt32 (info.nHKL : Int))) then some CapacityError
      else none := by
  unfold generate_bragg_edges
  simp only []
  split_ifs <;> rfl

theorem toInt32_of_fits (x : Int) (h : IsInt32 x) : toInt32 x = x := by
  unfold IsInt32 at h; unfold toInt32; omega

theorem twice_nHKL (info : Info) (h : PlanesFit info) :
    toInt32 (2 * toInt32 (info.nHKL : Int)) = 2 * (info.nHKL : Int) := by
  unfold PlanesFit at h; unfold toInt32 Info.nHKL; omega

theorem markRedistribute_captured (z a : Nat) (st : ScanState) :
    captured (markRedistribute z a st) = captured st.out := by
  unfold markRedistribute; split <;> rfl

/-- The memory after a run, by cases on the checks of the code. -/
theorem mem_eq (wl2ekin : ℚ → ℚ) (info : Info) (maxb : Int) (z a : Nat) (mem : Outputs) :
    (generate_bragg_edges wl2ekin info maxb z a mem).mem =
      if info.isSingleCrystal then mem
      else if (scanAll info z a mem).nfound = 0 then (scanAll info z a mem).out
      else if (scanAll info z a mem).nfound > 1 then (scanAll info z a mem).out
      else if ¬ (maxb > toInt32 (2 * toInt32 (info.nHKL : Int))) then
        markRedistribute z a (scanAll info z a mem)
      else
        { markRedistribute z a (scanAll info z a mem) with
          nbragg := toInt32 (info.nHKL : Int)
          data := tabulate wl2ekin info (markRedistribute z a (scanAll info z a mem)).data } := by
  unfold generate_bragg_edges
  simp only []
  split_ifs <;> rfl

/-- The five per-isotope outputs are not touched after the scan. -/
theorem mem_captured (wl2ekin : ℚ → ℚ) (info : Info) (maxb : Int) (z a : Nat) (mem : Outputs)
    (hsc : info.isSingleCrystal = false) :
    captured (generate_bragg_edges wl2ekin info maxb z a mem).mem
      = captured (scanAll info z a mem).out := by
  rw [mem_eq, hsc]
  simp only [Bool.false_eq_true, if_false]
  split_ifs
  · rfl
  · rfl
  · rw [← markRedistribute_captured z a (scanAll info z a mem)]
    simp only [captured]
  · exact markRedistribute_captured z a _

/-- A successful run is on a material that is not a single crystal and has
counted exactly one match. -/
theorem success_inv (wl2ekin : ℚ → ℚ) (info : Info) (maxb : Int) (z a : Nat) (mem : Outputs)
    (hok : (generate_bragg_edges wl2ekin info maxb z a mem).thrown = none) :
    info.isSingleCrystal = false ∧ (scanAll info z a mem).nfound = 1
      ∧ maxb > toInt32 (2 * toInt32 (info.nHKL : Int)) := by
  rw [thrown_eq] at hok
  split_ifs at hok with h1 h2 h3 h4
  refine ⟨by simpa using h1, by omega, by omega⟩

/-- With exactly one match, the scan leaves the values of that match in the
five per-isotope outputs. -/
theorem scanAll_captured_unique (info : Info) (z a : Nat) (mem : Outputs)
    (h1 : matchCount info z a = 1) (di : DynamicInfo) (hdi : di ∈ scanned info)
    (hm : matchesRequest z a di = true) :
    captured (scanAll info z a mem).out = capturedOf di := by
  rw [← countP_scanMatch, List.countP_eq_length_filter, List.length_eq_one] at h1
  obtain ⟨y, hy⟩ := h1
  have hmem : di ∈ info.getDynamicInfoList.filter (scanMatch z a) := by
    unfold scanned at hdi
    rw [List.mem_filter] at hdi ⊢
    refine ⟨hdi.1, ?_⟩
    have hv : di.isVDOS = true := by simpa using hdi.2
    simp [scanMatch, hv, hm]
  rw [hy, List.mem_singleton] at hmem
  unfold scanAll
  rw [foldl_scan_captured, hy, hmem]
  rfl

/-- The exception of a run on a material that is not a single crystal, in
terms of the number of matching components. -/
theorem thrown_of_count (wl2ekin : ℚ → ℚ) (info : Info) (maxb : Int) (z a : Nat)
    (mem : Outputs) (hsc : info.isSingleCrystal = false) (hfit : ComponentsFit info) :
    (generate_bragg_edges wl2ekin info maxb z a mem).thrown =
      if matchCount info z a = 0 then some NotFoundError
      else if matchCount info z a > 1 then some AmbiguousMatchError
      else if ¬ (maxb > toInt32 (2 * toInt32 (info.nHKL : Int))) then some CapacityError
      else none := by
  rw [thrown_eq, scanAll_nfound info z a mem hfit, hsc]
  simp only [Bool.false_eq_true, if_false]

/-- The example of the spec, requested with `(1, 0)` and capacity `3`,
succeeds. -/
theorem specExample_succeeds (wl2ekin : ℚ → ℚ) (mem : Outputs) :
    (generate_bragg_edges wl2ekin specExample 3 1 0 mem).thrown = none := by
  rw [thrown_of_count wl2ekin specExample 3 1 0 mem rfl (by decide)]
  decide

/-- The ranking example, requested with `(1, 0)` and capacity `3`, succeeds. -/
theorem rankingExample_succeeds (wl2ekin : ℚ → ℚ) (mem : Outputs) :
    (generate_bragg_edges wl2ekin rankingExample 3 1 0 mem).thrown = none := by
  rw [thrown_of_count wl2ekin rankingExample 3 1 0 mem rfl (by decide)]
  decide

/-! ## Lemmas on the plane loop and on the caller memory -/

theorem tabulateBody_eq (w : ℚ → ℚ) (x : ℚ) (k : Nat) (d : Nat → ℚ) (h : HKLInfo) :
    tabulateBody w x (k, d) h
      = (k + 2,
          Function.update (Function.update d k (w (2 * h.dspacing))) (k + 1)
            (w (2 * h.dspacing) * (h.fsquared * (h.multiplicity : ℚ) * h.dspacing) * x
              * (2 * h.dspacing) * (2 * h.dspacing))) := rfl

theorem foldl_tab_low (w : ℚ → ℚ) (x : ℚ) (l : List HKLInfo) :
    ∀ (k : Nat) (d : Nat → ℚ) (j : Nat), j < k →
      (l.foldl (tabulateBody w x) (k, d)).2 j = d j := by
  induction l with
  | nil => intro k d j _; rfl
  | cons h t ih =>
    intro k d j hj
    rw [List.foldl_cons, tabulateBody_eq, ih (k + 2) _ j (by omega)]
    simp only [Function.update_apply]
    rw [if_neg (by omega), if_neg (by omega)]

theorem foldl_tab_high (w : ℚ → ℚ) (x : ℚ) (l : List HKLInfo) :
    ∀ (k : Nat) (d : Nat → ℚ) (j : Nat), k + 2 * l.length ≤ j →
      (l.foldl (tabulateBody w x) (k, d)).2 j = d j := by
  induction l with
  | nil => intro k d j _; rfl
  | cons h t ih =>
    intro k d j hj
    rw [List.length_cons] at hj
    rw [List.foldl_cons, tabulateBody_eq, ih (k + 2) _ j (by omega)]
    simp only [Function.update_apply]
    rw [if_neg (by omega), if_neg (by omega)]

theorem foldl_tab_get (w : ℚ → ℚ) (x : ℚ) (l : List HKLInfo) :
    ∀ (k : Nat) (d : Nat → ℚ) (i : Nat) (hi : i < l.length),
      (l.foldl (tabulateBody w x) (k, d)).2 (k + 2 * i) = w (2 * l[i].dspacing)
      ∧ (l.foldl (tabulateBody w x) (k, d)).2 (k + 2 * i + 1)
          = w (2 * l[i].dspacing)
              * (l[i].fsquared * (l[i].multiplicity : ℚ) * l[i].dspacing) * x
              * (2 * l[i].dspacing) * (2 * l[i].dspacing) := by
  induction l with
  | nil => intro k d i hi; simp at hi
  | cons h t ih =>
    intro k d i hi
    rw [List.foldl_cons, tabulateBody_eq]
    cases i with
    | zero =>
      rw [foldl_tab_low w x t (k + 2) _ (k + 2 * 0) (by omega),
        foldl_tab_low w x t (k + 2) _ (k + 2 * 0 + 1) (by omega)]
      refine ⟨?_, ?_⟩ <;> simp [Function.update_apply]
    | succ j =>
      have hj : j < t.length := by simpa using hi
      have e1 : k + 2 * (j + 1) = k + 2 + 2 * j := by omega
      rw [e1]
      simp only [List.getElem_cons_succ]
      exact ih (k + 2) _ j hj

theorem scanAll_nbragg (info : Info) (z a : Nat) (mem : Outputs) :
    (scanAll info z a mem).out.nbragg = mem.nbragg := by
  unfold scanAll; rw [foldl_scan_nbragg]; rfl

theorem scanAll_data (info : Info) (z a : Nat) (mem : Outputs) :
    (scanAll info z a mem).out.data = mem.data := by
  unfold scanAll; rw [foldl_scan_data]; rfl

theorem markRedistribute_nbragg (z a : Nat) (st : ScanState) :
    (markRedistribute z a st).nbragg = st.out.nbragg := by
  unfold markRedistribute; split <;> rfl

theorem markRedistribute_data (z a : Nat) (st : ScanState) :
    (markRedistribute z a st).data = st.out.data := by
  unfold markRedistribute; split <;> rfl

/-- On success the plane count is `n` and the buffer is the outcome of the
plane loop on the buffer the caller passed. -/
theorem success_mem (wl2ekin : ℚ → ℚ) (info : Info) (maxb : Int) (z a : Nat) (mem : Outputs)
    (hok : (generate_bragg_edges wl2ekin info maxb z a mem).thrown = none) :
    (generate_bragg_edges wl2ekin info maxb z a mem).mem.nbragg = toInt32 (info.nHKL : Int)
    ∧ (generate_bragg_edges wl2ekin info maxb z a mem).mem.data
        = tabulate wl2ekin info mem.data := by
  have hd : (markRedistribute z a (scanAll info z a mem)).data = mem.data := by
    rw [markRedistribute_data, scanAll_data]
  rw [thrown_eq] at hok
  rw [mem_eq]
  split_ifs at hok ⊢
  exact ⟨rfl, by simp only [hd]⟩

/-- A call that throws leaves the plane count and the buffer as they were. -/
theorem failure_frame (wl2ekin : ℚ → ℚ) (info : Info) (maxb : Int) (z a : Nat) (mem : Outputs)
    (hfail : (generate_bragg_edges wl2ekin info maxb z a mem).thrown ≠ none) :
    (generate_bragg_edges wl2ekin info maxb z a mem).mem.nbragg = mem.nbragg
    ∧ (generate_bragg_edges wl2ekin info maxb z a mem).mem.data = mem.data := by
  have hn : (markRedistribute z a (scanAll info z a mem)).nbragg = mem.nbragg := by
    rw [markRedistribute_nbragg, scanAll_nbragg]
  have hd : (markRedistribute z a (scanAll info z a mem)).data = mem.data := by
    rw [markRedistribute_data, scanAll_data]
  rw [thrown_eq] at hfail
  rw [mem_eq]
  split_ifs at hfail ⊢
  · exact ⟨rfl, rfl⟩
  · exact ⟨scanAll_nbragg info z a mem, scanAll_data info z a mem⟩
  · exact ⟨scanAll_nbragg info z a mem, scanAll_data info z a mem⟩
  · exact absurd rfl hfail
  · exact ⟨hn, hd⟩

theorem rankStep_redistribute (st : ScanState) (di : DynamicInfo) :
    (rankStep st di).out.c_redistribute_this = st.out.c_redistribute_this := by
  unfold rankStep; split <;> rfl

theorem matchStep_redistribute (z a : Nat) (st : ScanState) (di : DynamicInfo) :
    (matchStep z a st di).out.c_redistribute_this = st.out.c_redistribute_this := by
  unfold matchStep; split_ifs <;> rfl

theorem scanBody_redistribute (z a : Nat) (st : ScanState) (di : DynamicInfo) :
    (scanBody z a st di).out.c_redistribute_this = st.out.c_redistribute_this := by
  unfold scanBody; split
  · rw [matchStep_redistribute, rankStep_redistribute]
  · rfl

theorem foldl_scan_redistribute (z a : Nat) (l : List DynamicInfo) :
    ∀ st : ScanState,
      (l.foldl (scanBody z a) st).out.c_redistribute_this = st.out.c_redistribute_this := by
  induction l with
  | nil => intro st; rfl
  | cons x xs ih => intro st; rw [List.foldl_cons, ih, scanBody_redistribute]

/-- The scan leaves the redistribution flag at the `0` it was reset to. -/
theorem scanAll_redistribute (info : Info) (z a : Nat) (mem : Outputs) :
    (scanAll info z a mem).out.c_redistribute_this = 0 := by
  unfold scanAll; rw [foldl_scan_redistribute]; rfl

/-- Without a matching component the scan leaves the five per-isotope
outputs as they were. -/
theorem scanAll_captured_none (info : Info) (z a : Nat) (mem : Outputs)
    (h0 : matchCount info z a = 0) :
    captured (scanAll info z a mem).out = captured mem := by
  rw [← countP_scanMatch, List.countP_eq_length_filter, List.length_eq_zero] at h0
  unfold scanAll
  rw [foldl_scan_captured, h0]
  rfl

/-- The memory after a not-found or ambiguous-match throw is the memory
after the scan. -/
theorem mem_of_count_failure (wl2ekin : ℚ → ℚ) (info : Info) (maxb : Int) (z a : Nat)
    (mem : Outputs)
    (h : (generate_bragg_edges wl2ekin info maxb z a mem).thrown = some NotFoundError
      ∨ (generate_bragg_edges wl2ekin info maxb z a mem).thrown = some AmbiguousMatchError) :
    (generate_bragg_edges wl2ekin info maxb z a mem).mem = (scanAll info z a mem).out := by
  rw [thrown_eq] at h
  rw [mem_eq]
  split_ifs at h ⊢
  · exfalso; revert h; decide
  · rfl
  · rfl
  · exfalso; revert h; decide
  · exfalso; revert h; decide

/-- Every exception of a run is one of the four throws of the code. -/
theorem thrown_cases (wl2ekin : ℚ → ℚ) (info : Info) (maxb : Int) (z a : Nat) (mem : Outputs)
    (e : NCError) (h : (generate_bragg_edges wl2ekin info maxb z a mem).thrown = some e) :
    e = ConfigurationError ∨ e = NotFoundError ∨ e = AmbiguousMatchError
      ∨ e = CapacityError := by
  rw [thrown_eq] at h
  split_ifs at h
  · exact Or.inl (Option.some.inj h).symm
  · exact Or.inr (Or.inl (Option.some.inj h).symm)
  · exact Or.inr (Or.inr (Or.inl (Option.some.inj h).symm))
  · exact Or.inr (Or.inr (Or.inr (Option.some.inj h).symm))

/-- Carbon-12 requested from the hydrogen-only example of the spec is not
found. -/
theorem specExample_carbon_not_found (wl2ekin : ℚ → ℚ) (mem : Outputs) :
    (generate_bragg_edges wl2ekin specExample 3 6 12 mem).thrown = some NotFoundError := by
  rw [thrown_of_count wl2ekin specExample 3 6 12 mem rfl (by decide)]
  decide

/-! ## Lemmas on the ranking -/

theorem rankStep_ranking (st : ScanState) (di : DynamicInfo) :
    ranking (rankStep st di)
      = if replaces st.out.c_incoherent_fraction di then rankingOf di else ranking st := by
  unfold rankStep replaces
  split <;> rfl

theorem matchStep_ranking (z a : Nat) (st : ScanState) (di : DynamicInfo) :
    ranking (matchStep z a st di) = ranking st := by
  unfold matchStep; split_ifs <;> rfl

theorem matchStep_stored (z a : Nat) (st : ScanState) (di : DynamicInfo) :
    (matchStep z a st di).out.c_incoherent_fraction = st.out.c_incoherent_fraction := by
  unfold matchStep; split_ifs <;> rfl

theorem scanBody_ranking (z a : Nat) (st : ScanState) (di : DynamicInfo) :
    ranking (scanBody z a st di)
      = if di.isVDOS = true ∧ replaces st.out.c_incoherent_fraction di then rankingOf di
        else ranking st := by
  unfold scanBody
  by_cases hv : di.isVDOS = true
  · rw [if_pos hv, matchStep_ranking, rankStep_ranking]
    by_cases hr : replaces st.out.c_incoherent_fraction di
    · rw [if_pos hr, if_pos ⟨hv, hr⟩]
    · rw [if_neg hr, if_neg (fun h => hr h.2)]
  · rw [if_neg hv, if_neg (fun h => hv h.1)]

theorem ranking_stored (st : ScanState) : (ranking st).1 = st.out.c_incoherent_fraction := rfl

/-- The ranking after the scan depends on the state before it only through
the ranking. -/
theorem foldl_scan_ranking_congr (z a w b : Nat) (l : List DynamicInfo) :
    ∀ st1 st2 : ScanState, ranking st1 = ranking st2 →
      ranking (l.foldl (scanBody z a) st1) = ranking (l.foldl (scanBody w b) st2) := by
  induction l with
  | nil => intro st1 st2 h; exact h
  | cons x xs ih =>
    intro st1 st2 h
    rw [List.foldl_cons, List.foldl_cons]
    apply ih
    have hs : st1.out.c_incoherent_fraction = st2.out.c_incoherent_fraction := by
      rw [← ranking_stored, ← ranking_stored, h]
    rw [scanBody_ranking, scanBody_ranking, hs, h]

/-- After the scan either some scanned component left its ranking, or the
ranking is the initial one and, if the initial stored value is the `-1` mark,
no component was scanned. -/
theorem foldl_scan_ranking_cases (z a : Nat) (l : List DynamicInfo) :
    ∀ st : ScanState,
      (∃ c ∈ l, c.isVDOS = true ∧ ranking (l.foldl (scanBody z a) st) = rankingOf c)
      ∨ (ranking (l.foldl (scanBody z a) st) = ranking st
          ∧ (st.out.c_incoherent_fraction = -1 → ∀ c ∈ l, c.isVDOS = false)) := by
  induction l with
  | nil => intro st; exact Or.inr ⟨rfl, fun _ c hc => by simp at hc⟩
  | cons x xs ih =>
    intro st
    rw [List.foldl_cons]
    rcases ih (scanBody z a st x) with ⟨c, hc, hv, hr⟩ | ⟨hr, hnone⟩
    · exact Or.inl ⟨c, List.mem_cons_of_mem _ hc, hv, hr⟩
    · by_cases hx : x.isVDOS = true ∧ replaces st.out.c_incoherent_fraction x
      · refine Or.inl ⟨x, List.mem_cons_self _ _, hx.1, ?_⟩
        rw [hr, scanBody_ranking, if_pos hx]
      · have hsame : ranking (scanBody z a st x) = ranking st := by
          rw [scanBody_ranking, if_neg hx]
        refine Or.inr ⟨hr.trans hsame, ?_⟩
        intro hinit c hc
        have hxv : x.isVDOS = false := by
          cases hv : x.isVDOS
          · rfl
          · exact absurd ⟨hv, Or.inr hinit⟩ hx
        rcases List.mem_cons.mp hc with rfl | hc
        · exact hxv
        · apply hnone _ c hc
          rw [← ranking_stored, hsame]
          exact hinit

theorem markRedistribute_stored (z a : Nat) (st : ScanState) :
    (markRedistribute z a st).c_incoherent_fraction = st.out.c_incoherent_fraction := by
  unfold markRedistribute; split <;> rfl

theorem markRedistribute_flag (z a : Nat) (st : ScanState) :
    (markRedistribute z a st).c_redistribute_this
      = if st.minimum_incoherent_contribution_Z = z ∧ st.minimum_incoherent_contribution_A = a
        then 1 else st.out.c_redistribute_this := by
  unfold markRedistribute; split <;> rfl

/-- On success the reported ranking value is the one stored by the scan and
the flag is `1` exactly when the recorded candidate is the request. -/
theorem success_scalars (wl2ekin : ℚ → ℚ) (info : Info) (maxb : Int) (z a : Nat)
    (mem : Outputs)
    (hok : (generate_bragg_edges wl2ekin info maxb z a mem).thrown = none) :
    (generate_bragg_edges wl2ekin info maxb z a mem).mem.c_incoherent_fraction
        = (scanAll info z a mem).out.c_incoherent_fraction
    ∧ (generate_bragg_edges wl2ekin info maxb z a mem).mem.c_redistribute_this
        = if (scanAll info z a mem).minimum_incoherent_contribution_Z = z
            ∧ (scanAll info z a mem).minimum_incoherent_contribution_A = a
          then 1 else 0 := by
  have hs := markRedistribute_stored z a (scanAll info z a mem)
  have hf := markRedistribute_flag z a (scanAll info z a mem)
  rw [scanAll_redistribute] at hf
  rw [thrown_eq] at hok
  rw [mem_eq]
  split_ifs at hok ⊢
  · exact ⟨by simp only [hs], by simp only [hf]; simp [*]⟩
  · exact ⟨by simp only [hs], by simp only [hf]; simp [*]⟩

/-- The counter after the scan is the number of matches modulo `2^32`. -/
theorem scanAll_nfound_mod (info : Info) (z a : Nat) (mem : Outputs) :
    (scanAll info z a mem).nfound
      = info.getDynamicInfoList.countP (scanMatch z a) % 4294967296 := by
  unfold scanAll
  rw [foldl_scan_nfound z a _ _ (by simp [scanInit])]
  simp [scanInit]

/-- The ranking after the scan does not depend on the memory the caller
passed, nor on the request. -/
theorem scanAll_ranking_indep (info : Info) (z a w b : Nat) (mem1 mem2 : Outputs) :
    ranking (scanAll info z a mem1) = ranking (scanAll info w b mem2) := by
  unfold scanAll
  exact foldl_scan_ranking_congr z a w b _ _ _ rfl

/-- With a scanned component in the list, the ranking after the scan is the
one left by some scanned component. -/
theorem scanAll_ranking_exists (info : Info) (z a : Nat) (mem : Outputs)
    (h : ∃ c ∈ info.getDynamicInfoList, c.isVDOS = true) :
    ∃ c ∈ scanned info, ranking (scanAll info z a mem) = rankingOf c := by
  unfold scanAll
  rcases foldl_scan_ranking_cases z a info.getDynamicInfoList (scanInit mem) with
    ⟨c, hc, hv, hr⟩ | ⟨_, hnone⟩
  · refine ⟨c, ?_, hr⟩
    unfold scanned
    rw [List.mem_filter]
    exact ⟨hc, by simpa using hv⟩
  · obtain ⟨c, hc, hv⟩ := h
    have := hnone rfl c hc
    rw [hv] at this
    exact absurd this (by decide)

/-- A counter different from `0` after the scan comes from a scanned
component that matches. -/
theorem exists_match_of_nfound (info : Info) (z a : Nat) (mem : Outputs)
    (h : (scanAll info z a mem).nfound ≠ 0) :
    ∃ c ∈ info.getDynamicInfoList, scanMatch z a c = true := by
  rw [scanAll_nfound_mod] at h
  have hpos : 0 < info.getDynamicInfoList.countP (scanMatch z a) := by
    rcases Nat.eq_zero_or_pos (info.getDynamicInfoList.countP (scanMatch z a)) with h0 | h0
    · rw [h0] at h; exact absurd rfl h
    · exact h0
  exact List.countP_pos_iff.mp hpos

theorem getLastD_of_ne_nil {α : Type} (l : List α) (x y : α) (h : l ≠ []) :
    l.getLastD x = l.getLastD y := by
  cases l with
  | nil => exact absurd rfl h
  | cons b t => rw [List.getLastD_cons, List.getLastD_cons]

/-- With a match in the list, the five per-isotope outputs after the scan do
not depend on the memory the caller passed. -/
theorem scanAll_captured_indep (info : Info) (z a : Nat) (mem1 mem2 : Outputs)
    (h : ∃ c ∈ info.getDynamicInfoList, scanMatch z a c = true) :
    captured (scanAll info z a mem1).out = captured (scanAll info z a mem2).out := by
  unfold scanAll
  rw [foldl_scan_captured, foldl_scan_captured]
  apply getLastD_of_ne_nil
  obtain ⟨c, hc, hm⟩ := h
  intro hnil
  have hmem : c ∈ info.getDynamicInfoList.filter (scanMatch z a) :=
    List.mem_filter.mpr ⟨hc, hm⟩
  rw [List.map_eq_nil_iff] at hnil
  rw [hnil] at hmem
  simp at hmem

theorem toInt32_le (n : Nat) : toInt32 (n : Int) ≤ (n : Int) := by
  unfold toInt32; omega

theorem lt_of_lt_twice_toInt32 (n j : Nat) (h : (j : Int) < 2 * toInt32 (n : Int)) :
    j < 2 * n := by
  have := toInt32_le n
  omega

/-- The buffer after the plane loop, below twice the plane count, does not
depend on the buffer before it. -/
theorem tabulate_indep (wl2ekin : ℚ → ℚ) (info : Info) (d1 d2 : Nat → ℚ) (j : Nat)
    (hj : j < 2 * info.hklList.length) :
    tabulate wl2ekin info d1 j = tabulate wl2ekin info d2 j := by
  unfold tabulate
  have hi : j / 2 < info.hklList.length := by omega
  have g1 := foldl_tab_get wl2ekin (0.5 / (info.volume * info.n_atoms)) info.hklList 0 d1
    (j / 2) hi
  have g2 := foldl_tab_get wl2ekin (0.5 / (info.volume * info.n_atoms)) info.hklList 0 d2
    (j / 2) hi
  rcases Nat.mod_two_eq_zero_or_one j with hm | hm
  · have e : j = 0 + 2 * (j / 2) := by omega
    rw [e, g1.1, g2.1]
  · have e : j = 0 + 2 * (j / 2) + 1 := by omega
    rw [e, g1.2, g2.2]

/-- Components that are not scanned do not change the scan state. -/
theorem foldl_scan_filter (z a : Nat) (l : List DynamicInfo) :
    ∀ st : ScanState,
      l.foldl (scanBody z a) st = (l.filter (fun di => di.isVDOS)).foldl (scanBody z a) st := by
  induction l with
  | nil => intro st; rfl
  | cons x xs ih =>
    intro st
    rw [List.foldl_cons, List.filter_cons]
    cases hv : x.isVDOS
    · have hst : scanBody z a st x = st := by unfold scanBody; rw [hv]; rfl
      rw [hst, ih]; rfl
    · rw [if_pos rfl, List.foldl_cons, ih]

/-- The scan as a loop over the scanned components only. -/
theorem scanAll_eq_scanned (info : Info) (z a : Nat) (mem : Outputs) :
    scanAll info z a mem = (scanned info).foldl (scanBody z a) (scanInit mem) := by
  unfold scanAll scanned
  exact foldl_scan_filter z a _ _

/-- The first scanned component always becomes the candidate. -/
theorem scanBody_init_ranking (z a : Nat) (mem : Outputs) (c : DynamicInfo)
    (hv : c.isVDOS = true) :
    ranking (scanBody z a (scanInit mem) c) = rankingOf c := by
  rw [scanBody_ranking, if_pos ⟨hv, Or.inr rfl⟩]

/-- A matching species that is not classified twice is recorded as the
request. -/
theorem speciesOf_of_match (z a : Nat) (c : DynamicInfo)
    (hm : matchesRequest z a c = true) (hex : ExclusiveClass c) :
    speciesOf c = (z, a) := by
  unfold matchesRequest at hm
  unfold ExclusiveClass at hex
  unfold speciesOf
  simp only [Bool.and_eq_true, Bool.or_eq_true, beq_iff_eq] at hm
  obtain ⟨⟨_, hz⟩, hA⟩ := hm
  rcases hA with ⟨hs, hA⟩ | ⟨hn, ha⟩
  · have hnat : c.atomData.isNaturalElement = false := by
      cases h : c.atomData.isNaturalElement
      · rfl
      · exact absurd ⟨hs, h⟩ hex
    rw [hnat, hz, hA]; rfl
  · rw [hn, hz, ha]; rfl

/-- An element-type species with exactly one classification that is recorded
as the request satisfies the match predicate. -/
theorem match_of_speciesOf (z a : Nat) (c : DynamicInfo)
    (he : c.atomData.isElement = true)
    (hone : c.atomData.isSingleIsotope ≠ c.atomData.isNaturalElement)
    (hsp : speciesOf c = (z, a)) :
    matchesRequest z a c = true := by
  unfold speciesOf at hsp
  unfold matchesRequest
  simp only [Prod.mk.injEq] at hsp
  obtain ⟨hz, hA⟩ := hsp
  cases hn : c.atomData.isNaturalElement
  · have hs : c.atomData.isSingleIsotope = true := by
      cases h : c.atomData.isSingleIsotope
      · rw [h, hn] at hone; exact absurd rfl hone
      · rfl
    rw [hn] at hA
    simp [he, hz, hs] at hA ⊢
    exact hA
  · rw [hn] at hA
    simp at hA
    simp [he, hz, hA]

theorem toInt32_nHKL (info : Info) (h : PlanesFit info) :
    toInt32 (info.nHKL : Int) = (info.hklList.length : Int) := by
  unfold PlanesFit at h; unfold toInt32 Info.nHKL; omega

theorem planesFit_of_capacity (info : Info) (maxb : Int) (hint : IsInt32 maxb)
    (hcap : maxb > 2 * (info.nHKL : Int)) : PlanesFit info := by
  unfold PlanesFit; unfold IsInt32 at hint; unfold Info.nHKL at hcap; omega

/-- A capacity accepted by the check of line 96 exceeds every index below
twice the plane count. -/
theorem index_below_capacity (info : Info) (maxb : Int) (hp : PlanesFit info)
    (hcap : maxb > toInt32 (2 * toInt32 (info.nHKL : Int))) (j : Nat)
    (hj : j < 2 * info.hklList.length) : (j : Int) < maxb := by
  rw [twice_nHKL info hp] at hcap
  unfold Info.nHKL at hcap
  omega

/-- The buffer after the plane loop: the pairs in plane order, and every slot
from twice the number of planes on as before. -/
theorem tabulate_layout (wl2ekin : ℚ → ℚ) (info : Info) (d : Nat → ℚ) :
    (∀ (i : Nat) (hi : i < info.hklList.length),
        tabulate wl2ekin info d (2 * i) = wl2ekin (2 * info.hklList[i].dspacing)
        ∧ tabulate wl2ekin info d (2 * i + 1)
            = wl2ekin (2 * info.hklList[i].dspacing) * info.hklList[i].fsquared
                * (info.hklList[i].multiplicity : ℚ) * info.hklList[i].dspacing
                * (0.5 / (info.volume * info.n_atoms)) * (2 * info.hklList[i].dspacing) ^ 2)
    ∧ ∀ j : Nat, 2 * info.hklList.length ≤ j → tabulate wl2ekin info d j = d j := by
  unfold tabulate
  refine ⟨?_, ?_⟩
  · intro i hi
    have h := foldl_tab_get wl2ekin (0.5 / (info.volume * info.n_atoms)) info.hklList 0 d i hi
    simp only [Nat.zero_add] at h
    refine ⟨h.1, ?_⟩
    rw [h.2]
    ring
  · intro j hj
    exact foldl_tab_high wl2ekin (0.5 / (info.volume * info.n_atoms)) info.hklList 0 d j
      (by omega)

/-- A single-crystal material leaves the caller memory untouched. -/
theorem mem_of_single_crystal (wl2ekin : ℚ → ℚ) (info : Info) (maxb : Int) (z a : Nat)
    (mem : Outputs) (hsc : info.isSingleCrystal = true) :
    (generate_bragg_edges wl2ekin info maxb z a mem).mem = mem := by
  rw [mem_eq, hsc]; rfl

/-- The match count does not depend on the order of the components. -/
theorem matchCount_perm (info : Info) (l : List DynamicInfo) (z a : Nat)
    (hperm : info.getDynamicInfoList.Perm l) :
    matchCount (withComponents info l) z a = matchCount info z a := by
  unfold matchCount scanned withComponents
  exact ((hperm.filter _).countP_eq _).symm

/-- Removing the components that are not element-type keeps the matches. -/
theorem filter_scanMatch_elements (l : List DynamicInfo) (z a : Nat) :
    (l.filter (fun di => di.atomData.isElement)).filter (scanMatch z a)
      = l.filter (scanMatch z a) := by
  rw [List.filter_filter]
  congr 1
  funext di
  unfold scanMatch matchesRequest
  cases di.atomData.isElement <;> simp

/-- The five per-isotope outputs after the scan, from the matches alone. -/
theorem scanAll_captured (info : Info) (z a : Nat) (mem : Outputs) :
    captured (scanAll info z a mem).out
      = ((info.getDynamicInfoList.filter (scanMatch z a)).map capturedOf).getLastD
          (captured mem) := by
  unfold scanAll
  rw [foldl_scan_captured]
  rfl

theorem countP_scanMatch_elements (info : Info) (z a : Nat) :
    (elementsOnly info).getDynamicInfoList.countP (scanMatch z a)
      = info.getDynamicInfoList.countP (scanMatch z a) := by
  unfold elementsOnly withComponents
  rw [List.countP_eq_length_filter, List.countP_eq_length_filter, filter_scanMatch_elements]

/-- The mixture example, requested with `(1, 0)` and capacity `3`, succeeds. -/
theorem mixtureExample_succeeds (wl2ekin : ℚ → ℚ) (mem : Outputs) :
    (generate_bragg_edges wl2ekin mixtureExample 3 1 0 mem).thrown = none := by
  rw [thrown_of_count wl2ekin mixtureExample 3 1 0 mem rfl (by decide)]
  decide

theorem normalizedContribution_nonneg (c : DynamicInfo) (h0 : 0 ≤ c.fraction)
    (h1 : c.fraction < 1) (hx : 0 ≤ c.atomData.incoherentXS) :
    0 ≤ normalizedContribution c := by
  unfold normalizedContribution
  split
  · exact le_refl 0
  · exact mul_nonneg (div_nonneg h0 (by linarith)) hx

/-- After a successful call the ranking of the scan is the one left by some
scanned component. -/
theorem success_ranking_exists (wl2ekin : ℚ → ℚ) (info : Info) (maxb : Int) (z a : Nat)
    (mem : Outputs)
    (hok : (generate_bragg_edges wl2ekin info maxb z a mem).thrown = none) :
    ∃ c ∈ scanned info, ranking (scanAll info z a mem) = rankingOf c := by
  obtain ⟨_, hn, _⟩ := success_inv wl2ekin info maxb z a mem hok
  obtain ⟨c, hc, hm⟩ := exists_match_of_nfound info z a mem (by rw [hn]; decide)
  apply scanAll_ranking_exists
  refine ⟨c, hc, ?_⟩
  unfold scanMatch at hm
  simp only [Bool.and_eq_true] at hm
  exact hm.1

/-- The only scanned component of the example of the spec is its hydrogen. -/
theorem mem_scanned_specExample (c : DynamicInfo) (hc : c ∈ scanned specExample) :
    c = hydrogen := by
  rw [show scanned specExample = [hydrogen] from rfl] at hc
  exact List.mem_singleton.mp hc

theorem hydrogen_fraction_lt_one : hydrogen.fraction < 1 := by
  unfold hydrogen
  norm_num

/-- For a fraction below `1` the normalized incoherent contribution is the
quotient proper: multiplied by `1 - fraction` it gives
`fraction * incoherentXS`. -/
theorem normalizedContribution_mul (c : DynamicInfo) (h : c.fraction < 1) :
    normalizedContribution c * (1 - c.fraction) = c.fraction * c.atomData.incoherentXS := by
  unfold normalizedContribution
  split_ifs with h0
  · rw [h0]; ring
  · have hne : 1 - c.fraction ≠ 0 := by
      intro h1
      have : c.fraction = 1 := by linarith
      rw [this] at h
      exact absurd h (lt_irrefl 1)
    field_simp

/-! ## Claims -/

/-- C1: for a material that is not a single crystal and an output capacity
above twice the plane count, the call returns without an exception if and only
if exactly one scanned component is element-type, has the requested `Z`, and is
a single isotope with the requested `A` or a natural element requested with
`A = 0`.  (The component list is shorter than `2^32` and `maxb` is an `int`.) -/
theorem C1_success_iff_exactly_one_match (wl2ekin : ℚ → ℚ) (info : Info) (maxb : Int)
    (z a : Nat) (mem : Outputs)
    (hsc : info.isSingleCrystal = false) (hfit : ComponentsFit info) (hint : IsInt32 maxb)
    (hcap : maxb > 2 * (info.nHKL : Int)) :
    (generate_bragg_edges wl2ekin info maxb z a mem).thrown = none
      ↔ matchCount info z a = 1 := by
  have hp : PlanesFit info := by
    unfold PlanesFit; unfold IsInt32 at hint; unfold Info.nHKL at hcap; omega
  rw [thrown_eq, scanAll_nfound info z a mem hfit, twice_nHKL info hp, hsc]
  simp only [Bool.false_eq_true, if_false]
  split_ifs <;> simp <;> omega

/-- Witness of C1 on the example of the spec, requested with `(1, 0)` and a
capacity of `3`. -/
theorem C1_success_iff_exactly_one_match_witness :
    (specExample.isSingleCrystal = false ∧ ComponentsFit specExample ∧ IsInt32 3
      ∧ (3 : Int) > 2 * (specExample.nHKL : Int))
    ∧ ((generate_bragg_edges id specExample 3 1 0 memBefore).thrown = none
      ↔ matchCount specExample 1 0 = 1) :=
  ⟨⟨rfl, by decide, by decide, by decide⟩,
    C1_success_iff_exactly_one_match id specExample 3 1 0 memBefore rfl (by decide) (by decide)
      (by decide)⟩

/-- C2: for a material that is not a single crystal, zero matching components
give the not-found exception and two or more give the ambiguous-match
exception; in particular the not-found exception is thrown when no scanned
component has the requested `Z`.  This holds for every output capacity.  (The
component list is shorter than `2^32`.) -/
theorem C2_not_found_and_ambiguous (wl2ekin : ℚ → ℚ) (info : Info) (maxb : Int)
    (z a : Nat) (mem : Outputs)
    (hsc : info.isSingleCrystal = false) (hfit : ComponentsFit info) :
    (matchCount info z a = 0 →
        (generate_bragg_edges wl2ekin info maxb z a mem).thrown = some NotFoundError)
    ∧ (2 ≤ matchCount info z a →
        (generate_bragg_edges wl2ekin info maxb z a mem).thrown = some AmbiguousMatchError)
    ∧ ((∀ di ∈ scanned info, di.atomData.Z ≠ z) →
        (generate_bragg_edges wl2ekin info maxb z a mem).thrown = some NotFoundError) := by
  have key : ∀ c, matchCount info z a = c →
      (generate_bragg_edges wl2ekin info maxb z a mem).thrown =
        if c = 0 then some NotFoundError
        else if c > 1 then some AmbiguousMatchError
        else if ¬ (maxb > toInt32 (2 * toInt32 (info.nHKL : Int))) then some CapacityError
        else none := by
    intro c hc
    rw [thrown_eq, scanAll_nfound info z a mem hfit, hsc, hc]
    simp only [Bool.false_eq_true, if_false]
  refine ⟨?_, ?_, ?_⟩
  · intro h0
    rw [key 0 h0]; rfl
  · intro h2
    rw [key _ rfl, if_neg (by omega), if_pos (by omega)]
  · intro hz
    have h0 : matchCount info z a = 0 := by
      unfold matchCount
      rw [List.countP_eq_zero]
      intro di hdi
      have := hz di hdi
      simp [matchesRequest, this]
    rw [key 0 h0]; rfl

/-- Witness of C2: carbon-12 requested from the hydrogen-only example, and
hydrogen requested from the material holding it twice. -/
theorem C2_not_found_and_ambiguous_witness :
    (matchCount specExample 6 12 = 0 ∧ (∀ di ∈ scanned specExample, di.atomData.Z ≠ 6)
      ∧ 2 ≤ matchCount twoHydrogens 1 0)
    ∧ (generate_bragg_edges id specExample 3 6 12 memBefore).thrown = some NotFoundError
    ∧ (generate_bragg_edges id twoHydrogens 3 1 0 memBefore).thrown
        = some AmbiguousMatchError :=
  ⟨⟨by decide, by decide, by decide⟩,
    (C2_not_found_and_ambiguous id specExample 3 6 12 memBefore rfl (by decide)).2.2
      (by decide),
    (C2_not_found_and_ambiguous id twoHydrogens 3 1 0 memBefore rfl (by decide)).2.1
      (by decide)⟩

/-- C3: on a successful call there is exactly one matching scanned component,
and the outputs bound incoherent, bound coherent, free-atom cross section,
mean-squared displacement and fraction are those of that component, wherever it
stands in the list.  (The component list is shorter than `2^32`.) -/
theorem C3_outputs_are_those_of_the_match (wl2ekin : ℚ → ℚ) (info : Info) (maxb : Int)
    (z a : Nat) (mem : Outputs) (hfit : ComponentsFit info)
    (hok : (generate_bragg_edges wl2ekin info maxb z a mem).thrown = none) :
    matchCount info z a = 1
    ∧ ∀ di ∈ scanned info, matchesRequest z a di = true →
        (generate_bragg_edges wl2ekin info maxb z a mem).mem.c_incoherent_bound_xs
            = di.atomData.incoherentXS
        ∧ (generate_bragg_edges wl2ekin info maxb z a mem).mem.c_coherent_bound_xs
            = di.atomData.coherentXS
        ∧ (generate_bragg_edges wl2ekin info maxb z a mem).mem.c_spr
            = di.atomData.freeScatteringXS
        ∧ (generate_bragg_edges wl2ekin info maxb z a mem).mem.c_ncrystal_msd = di.msd
        ∧ (generate_bragg_edges wl2ekin info maxb z a mem).mem.c_fraction = di.fraction := by
  obtain ⟨hsc, hn, _⟩ := success_inv wl2ekin info maxb z a mem hok
  have h1 : matchCount info z a = 1 := by rw [← scanAll_nfound info z a mem hfit, hn]
  refine ⟨h1, ?_⟩
  intro di hdi hm
  have hc := mem_captured wl2ekin info maxb z a mem hsc
  rw [scanAll_captured_unique info z a mem h1 di hdi hm] at hc
  simpa [captured, capturedOf] using hc

/-- Witness of C3 on the example of the spec: the outputs are those of its
hydrogen component. -/
theorem C3_outputs_are_those_of_the_match_witness :
    (ComponentsFit specExample
      ∧ (generate_bragg_edges id specExample 3 1 0 memBefore).thrown = none)
    ∧ (generate_bragg_edges id specExample 3 1 0 memBefore).mem.c_incoherent_bound_xs = 80
    ∧ (generate_bragg_edges id specExample 3 1 0 memBefore).mem.c_coherent_bound_xs = 1
    ∧ (generate_bragg_edges id specExample 3 1 0 memBefore).mem.c_spr = 81
    ∧ (generate_bragg_edges id specExample 3 1 0 memBefore).mem.c_ncrystal_msd = 1 / 4
    ∧ (generate_bragg_edges id specExample 3 1 0 memBefore).mem.c_fraction = 1 / 2 :=
  ⟨⟨by decide, specExample_succeeds id memBefore⟩,
    (C3_outputs_are_those_of_the_match id specExample 3 1 0 memBefore (by decide)
      (specExample_succeeds id memBefore)).2 hydrogen
      (by simp [scanned, specExample, hydrogen]) (by decide)⟩

/-- C4 (the code at the failing input): the ranking example meets the
preconditions of the claim (fractions in `[0, 1)`, incoherent cross sections
not negative); requested with `(1, 0)` the call succeeds and the requested
species is the arg-min of the normalized incoherent contribution (`2` against
`3`); yet the scan ends with `(8, 0)` as its candidate and the redistribution
flag is left at `0`. -/
theorem C4_flag_misses_the_arg_min :
    (∀ di ∈ scanned rankingExample,
        0 ≤ di.fraction ∧ di.fraction < 1 ∧ 0 ≤ di.atomData.incoherentXS)
    ∧ (generate_bragg_edges id rankingExample 3 1 0 memBefore).thrown = none
    ∧ (specArgMin (scanned rankingExample)).map speciesOf = some (1, 0)
    ∧ (scanAll rankingExample 1 0 memBefore).minimum_incoherent_contribution_Z = 8
    ∧ (scanAll rankingExample 1 0 memBefore).minimum_incoherent_contribution_A = 0
    ∧ (generate_bragg_edges id rankingExample 3 1 0 memBefore).mem.c_redistribute_this = 0 := by
  refine ⟨?_, rankingExample_succeeds id memBefore, ?_, ?_, ?_, ?_⟩
  · simp [scanned, rankingExample, lightComponent, heavyComponent]
    norm_num
  · simp [scanned, rankingExample, specArgMin, lightComponent, heavyComponent,
      normalizedContribution, speciesOf]
    norm_num
  · simp [scanAll, scanInit, scanBody, rankStep, matchStep, rankingExample, lightComponent,
      heavyComponent, memBefore, UINT_MAX]
    norm_num
  · simp [scanAll, scanInit, scanBody, rankStep, matchStep, rankingExample, lightComponent,
      heavyComponent, memBefore, UINT_MAX]
    norm_num
  · simp [generate_bragg_edges, scanAll, scanInit, scanBody, rankStep, matchStep,
      markRedistribute, rankingExample, lightComponent, heavyComponent, memBefore, UINT_MAX,
      toInt32, Info.nHKL]
    norm_num

/-- C5 (the code at the failing input): the ranking example meets the
preconditions of the claim; the call succeeds and reports `3` as the global
minimum, although the least normalized incoherent contribution is `2`; the
value kept by the scan rises from `2` after the first component to `3` after
the second. -/
theorem C5_reported_value_is_not_the_minimum :
    (∀ di ∈ scanned rankingExample,
        0 ≤ di.fraction ∧ di.fraction < 1 ∧ 0 ≤ di.atomData.incoherentXS)
    ∧ (generate_bragg_edges id rankingExample 3 1 0 memBefore).thrown = none
    ∧ specMinimum (scanned rankingExample) = some 2
    ∧ (generate_bragg_edges id rankingExample 3 1 0 memBefore).mem.c_incoherent_fraction = 3
    ∧ (scanBody 1 0 (scanInit memBefore) lightComponent).out.c_incoherent_fraction = 2
    ∧ (scanBody 1 0 (scanBody 1 0 (scanInit memBefore) lightComponent)
        heavyComponent).out.c_incoherent_fraction = 3 := by
  refine ⟨?_, rankingExample_succeeds id memBefore, ?_, ?_, ?_, ?_⟩
  · simp [scanned, rankingExample, lightComponent, heavyComponent]
    norm_num
  · simp [specMinimum, scanned, rankingExample, lightComponent, heavyComponent,
      normalizedContribution, List.min?]
    norm_num
  · simp [generate_bragg_edges, scanAll, scanInit, scanBody, rankStep, matchStep,
      markRedistribute, rankingExample, lightComponent, heavyComponent, memBefore, UINT_MAX,
      toInt32, Info.nHKL]
    norm_num
  · simp [scanInit, scanBody, rankStep, matchStep, lightComponent, memBefore]
    norm_num
  · simp [scanInit, scanBody, rankStep, matchStep, lightComponent, heavyComponent, memBefore]
    norm_num

/-- C6: for a material that is not a single crystal and has exactly one
matching component, the call throws the capacity exception if and only if
`maxb ≤ 2 * planeCount`, and succeeds otherwise; it throws at
`maxb = 2 * planeCount` and succeeds at `maxb = 2 * planeCount + 1`.  (`2 * n`
does not overflow and the component list is shorter than `2^32`.) -/
theorem C6_capacity_boundary (wl2ekin : ℚ → ℚ) (info : Info) (z a : Nat) (mem : Outputs)
    (hsc : info.isSingleCrystal = false) (hfit : ComponentsFit info) (hp : PlanesFit info)
    (h1 : matchCount info z a = 1) :
    (∀ maxb : Int,
        ((generate_bragg_edges wl2ekin info maxb z a mem).thrown = some CapacityError
          ↔ maxb ≤ 2 * (info.nHKL : Int))
        ∧ ((generate_bragg_edges wl2ekin info maxb z a mem).thrown = none
          ↔ maxb > 2 * (info.nHKL : Int)))
    ∧ (generate_bragg_edges wl2ekin info (2 * (info.nHKL : Int)) z a mem).thrown
        = some CapacityError
    ∧ (generate_bragg_edges wl2ekin info (2 * (info.nHKL : Int) + 1) z a mem).thrown
        = none := by
  have key : ∀ maxb : Int,
      (generate_bragg_edges wl2ekin info maxb z a mem).thrown =
        if ¬ (maxb > 2 * (info.nHKL : Int)) then some CapacityError else none := by
    intro maxb
    rw [thrown_of_count wl2ekin info maxb z a mem hsc hfit, h1, twice_nHKL info hp]
    simp
  refine ⟨?_, ?_, ?_⟩
  · intro maxb
    rw [key maxb]
    constructor
    · split_ifs with h <;> simp <;> omega
    · split_ifs with h <;> simp <;> omega
  · rw [key]; simp
  · rw [key]; simp

/-- Witness of C6 on the example of the spec (one plane): capacity `2` is
refused and capacity `3` is accepted. -/
theorem C6_capacity_boundary_witness :
    (specExample.isSingleCrystal = false ∧ ComponentsFit specExample ∧ PlanesFit specExample
      ∧ matchCount specExample 1 0 = 1)
    ∧ (generate_bragg_edges id specExample (2 * (specExample.nHKL : Int)) 1 0 memBefore).thrown
        = some CapacityError
    ∧ (generate_bragg_edges id specExample (2 * (specExample.nHKL : Int) + 1) 1 0
        memBefore).thrown = none :=
  ⟨⟨rfl, by decide, by decide, by decide⟩,
    (C6_capacity_boundary id specExample 1 0 memBefore rfl (by decide) (by decide)
      (by decide)).2⟩

/-- C7: on a successful call the plane count is the length of the plane list
and, for every `i` below it, slot `2 i` of the buffer holds
`E_i = wl2ekin (2 d_i)` and slot `2 i + 1` holds
`E_i * F²_i * mult_i * d_i * (0.5 / (V * N)) * (2 d_i)^2`, both computed from
plane `i` alone.  (`2 * n` does not overflow.) -/
theorem C7_pairs_per_plane (wl2ekin : ℚ → ℚ) (info : Info) (maxb : Int) (z a : Nat)
    (mem : Outputs) (hp : PlanesFit info)
    (hok : (generate_bragg_edges wl2ekin info maxb z a mem).thrown = none) :
    (generate_bragg_edges wl2ekin info maxb z a mem).mem.nbragg = (info.hklList.length : Int)
    ∧ ∀ (i : Nat) (hi : i < info.hklList.length),
        (generate_bragg_edges wl2ekin info maxb z a mem).mem.data (2 * i)
            = wl2ekin (2 * info.hklList[i].dspacing)
        ∧ (generate_bragg_edges wl2ekin info maxb z a mem).mem.data (2 * i + 1)
            = wl2ekin (2 * info.hklList[i].dspacing) * info.hklList[i].fsquared
                * (info.hklList[i].multiplicity : ℚ) * info.hklList[i].dspacing
                * (0.5 / (info.volume * info.n_atoms)) * (2 * info.hklList[i].dspacing) ^ 2 := by
  obtain ⟨hn, hd⟩ := success_mem wl2ekin info maxb z a mem hok
  refine ⟨?_, ?_⟩
  · rw [hn]
    unfold PlanesFit at hp
    unfold toInt32 Info.nHKL
    omega
  · intro i hi
    have h := foldl_tab_get wl2ekin (0.5 / (info.volume * info.n_atoms)) info.hklList 0
      mem.data i hi
    rw [hd]
    unfold tabulate
    simp only [Nat.zero_add] at h
    refine ⟨h.1, ?_⟩
    rw [h.2]
    ring

/-- Witness of C7 on the example of the spec (`d = 1`, `F² = 2`,
multiplicity `4`, `V = 100`, `N = 2`): one plane, energy `wl2ekin 2` and
weighted cross section `energy * 2 * 4 * 1 * (0.5 / 200) * 4`. -/
theorem C7_pairs_per_plane_witness :
    (PlanesFit specExample
      ∧ (generate_bragg_edges id specExample 3 1 0 memBefore).thrown = none)
    ∧ (generate_bragg_edges id specExample 3 1 0 memBefore).mem.nbragg = 1
    ∧ (generate_bragg_edges id specExample 3 1 0 memBefore).mem.data 0 = id 2
    ∧ (generate_bragg_edges id specExample 3 1 0 memBefore).mem.data 1
        = id 2 * 2 * 4 * 1 * (0.5 / 200) * 4 := by
  have h := C7_pairs_per_plane id specExample 3 1 0 memBefore (by decide)
    (specExample_succeeds id memBefore)
  have h0 := h.2 0 (by decide)
  refine ⟨⟨by decide, specExample_succeeds id memBefore⟩, h.1, ?_, ?_⟩
  · refine h0.1.trans ?_
    simp [specExample]
  · refine h0.2.trans ?_
    simp [specExample]
    norm_num

/-- C8: for a material flagged as a single crystal the call throws the
single-crystal exception whatever the components, the request and the
capacity are; the exception is none of the not-found, ambiguous-match and
capacity exceptions. -/
theorem C8_single_crystal_rejected (wl2ekin : ℚ → ℚ) (info : Info) (maxb : Int) (z a : Nat)
    (mem : Outputs) (hsc : info.isSingleCrystal = true) :
    (generate_bragg_edges wl2ekin info maxb z a mem).thrown = some ConfigurationError
    ∧ (generate_bragg_edges wl2ekin info maxb z a mem).thrown ≠ some NotFoundError
    ∧ (generate_bragg_edges wl2ekin info maxb z a mem).thrown ≠ some AmbiguousMatchError
    ∧ (generate_bragg_edges wl2ekin info maxb z a mem).thrown ≠ some CapacityError := by
  have h : (generate_bragg_edges wl2ekin info maxb z a mem).thrown
      = some ConfigurationError := by
    rw [thrown_eq, hsc]; rfl
  rw [h]
  refine ⟨rfl, ?_, ?_, ?_⟩ <;> decide

/-- Witness of C8: the single-crystal variant of the example of the spec,
whose only component matches the request `(1, 0)` and whose capacity `3` is
sufficient. -/
theorem C8_single_crystal_rejected_witness :
    (singleCrystalExample.isSingleCrystal = true ∧ matchCount singleCrystalExample 1 0 = 1
      ∧ (3 : Int) > 2 * (singleCrystalExample.nHKL : Int))
    ∧ (generate_bragg_edges id singleCrystalExample 3 1 0 memBefore).thrown
        = some ConfigurationError :=
  ⟨⟨rfl, by decide, by decide⟩,
    (C8_single_crystal_rejected id singleCrystalExample 3 1 0 memBefore rfl).1⟩

/-- C9 (counterexample): carbon-12 requested from the hydrogen-only example
fails with the not-found exception, and yet the outputs
`c_incoherent_fraction` and `c_redistribute_this`, both `7` before the call,
hold `80` and `0` after it. -/
theorem C9_failure_overwrites_outputs :
    (generate_bragg_edges id specExample 3 6 12 memBefore).thrown = some NotFoundError
    ∧ memBefore.c_incoherent_fraction = 7
    ∧ (generate_bragg_edges id specExample 3 6 12 memBefore).mem.c_incoherent_fraction = 80
    ∧ memBefore.c_redistribute_this = 7
    ∧ (generate_bragg_edges id specExample 3 6 12 memBefore).mem.c_redistribute_this = 0 := by
  refine ⟨specExample_carbon_not_found id memBefore, rfl, ?_, rfl, ?_⟩
  · simp [generate_bragg_edges, scanAll, scanInit, scanBody, rankStep, matchStep,
      specExample, hydrogen, memBefore, UINT_MAX]
    norm_num
  · simp [generate_bragg_edges, scanAll, scanInit, scanBody, rankStep, matchStep,
      specExample, hydrogen, memBefore, UINT_MAX]

/-- C9 (amended): a call that fails leaves the plane count and the pair
buffer as they were; a single-crystal failure leaves every output as it was;
a failure on a material that is not a single crystal and has no matching
component leaves the five per-isotope outputs as they were; and after a
not-found or ambiguous-match failure the redistribution flag holds `0`. -/
theorem C9_failure_effects (wl2ekin : ℚ → ℚ) (info : Info) (maxb : Int) (z a : Nat)
    (mem : Outputs)
    (hfail : (generate_bragg_edges wl2ekin info maxb z a mem).thrown ≠ none) :
    (generate_bragg_edges wl2ekin info maxb z a mem).mem.nbragg = mem.nbragg
    ∧ (generate_bragg_edges wl2ekin info maxb z a mem).mem.data = mem.data
    ∧ (info.isSingleCrystal = true →
        captured (generate_bragg_edges wl2ekin info maxb z a mem).mem = captured mem
        ∧ (generate_bragg_edges wl2ekin info maxb z a mem).mem.c_incoherent_fraction
            = mem.c_incoherent_fraction
        ∧ (generate_bragg_edges wl2ekin info maxb z a mem).mem.c_redistribute_this
            = mem.c_redistribute_this)
    ∧ (info.isSingleCrystal = false → matchCount info z a = 0 →
        captured (generate_bragg_edges wl2ekin info maxb z a mem).mem = captured mem)
    ∧ ((generate_bragg_edges wl2ekin info maxb z a mem).thrown = some NotFoundError
        ∨ (generate_bragg_edges wl2ekin info maxb z a mem).thrown = some AmbiguousMatchError →
        (generate_bragg_edges wl2ekin info maxb z a mem).mem.c_redistribute_this = 0) := by
  obtain ⟨hn, hd⟩ := failure_frame wl2ekin info maxb z a mem hfail
  refine ⟨hn, hd, ?_, ?_, ?_⟩
  · intro hsc
    unfold generate_bragg_edges
    rw [hsc]
    exact ⟨rfl, rfl, rfl⟩
  · intro hsc h0
    rw [mem_captured wl2ekin info maxb z a mem hsc, scanAll_captured_none info z a mem h0]
  · intro h
    rw [mem_of_count_failure wl2ekin info maxb z a mem h, scanAll_redistribute]

/-- Witness of C9 (amended): the failing call of the counterexample leaves
the plane count, the buffer and the five per-isotope outputs as they were. -/
theorem C9_failure_effects_witness :
    (generate_bragg_edges id specExample 3 6 12 memBefore).thrown ≠ none
    ∧ (generate_bragg_edges id specExample 3 6 12 memBefore).mem.nbragg = memBefore.nbragg
    ∧ (generate_bragg_edges id specExample 3 6 12 memBefore).mem.data = memBefore.data
    ∧ captured (generate_bragg_edges id specExample 3 6 12 memBefore).mem
        = captured memBefore :=
  have hfail : (generate_bragg_edges id specExample 3 6 12 memBefore).thrown ≠ none := by
    rw [specExample_carbon_not_found]; decide
  ⟨hfail, (C9_failure_effects id specExample 3 6 12 memBefore hfail).1,
    (C9_failure_effects id specExample 3 6 12 memBefore hfail).2.1,
    (C9_failure_effects id specExample 3 6 12 memBefore hfail).2.2.2.1 rfl (by decide)⟩

/-- C10 (counterexample): the exception thrown for a single-crystal material
and the exception thrown for zero matches have the same kind, `MissingInfo`. -/
theorem C10_single_crystal_and_not_found_share_a_kind :
    (generate_bragg_edges id singleCrystalExample 3 1 0 memBefore).thrown.map NCError.kind
        = some ErrorKind.MissingInfo
    ∧ (generate_bragg_edges id specExample 3 6 12 memBefore).thrown.map NCError.kind
        = some ErrorKind.MissingInfo := by
  constructor
  · rw [thrown_eq]; rfl
  · rw [specExample_carbon_not_found]; rfl

/-- C10 (amended): every exception of a call is one of the four throws of
the code; the capacity exception is the only one of kind `CalcError`, the
single-crystal, not-found and ambiguous-match exceptions all have kind
`MissingInfo`, and the four exceptions are pairwise different as pairs of
kind and message. -/
theorem C10_kinds_of_the_exceptions (wl2ekin : ℚ → ℚ) (info : Info) (maxb : Int) (z a : Nat)
    (mem : Outputs) (e : NCError)
    (h : (generate_bragg_edges wl2ekin info maxb z a mem).thrown = some e) :
    (e = ConfigurationError ∨ e = NotFoundError ∨ e = AmbiguousMatchError
      ∨ e = CapacityError)
    ∧ (e.kind = ErrorKind.CalcError ↔ e = CapacityError)
    ∧ (e.kind = ErrorKind.MissingInfo
        ↔ e = ConfigurationError ∨ e = NotFoundError ∨ e = AmbiguousMatchError)
    ∧ ConfigurationError ≠ NotFoundError ∧ ConfigurationError ≠ AmbiguousMatchError
    ∧ ConfigurationError ≠ CapacityError ∧ NotFoundError ≠ AmbiguousMatchError
    ∧ NotFoundError ≠ CapacityError ∧ AmbiguousMatchError ≠ CapacityError := by
  have hc := thrown_cases wl2ekin info maxb z a mem e h
  refine ⟨hc, ?_, ?_, by decide, by decide, by decide, by decide, by decide, by decide⟩
  · rcases hc with rfl | rfl | rfl | rfl <;> decide
  · rcases hc with rfl | rfl | rfl | rfl <;> decide

/-- Witness of C10 (amended): the not-found exception of the hydrogen-only
example has kind `MissingInfo`. -/
theorem C10_kinds_of_the_exceptions_witness :
    (generate_bragg_edges id specExample 3 6 12 memBefore).thrown = some NotFoundError
    ∧ (NotFoundError.kind = ErrorKind.MissingInfo
        ↔ NotFoundError = ConfigurationError ∨ NotFoundError = NotFoundError
          ∨ NotFoundError = AmbiguousMatchError) :=
  ⟨specExample_carbon_not_found id memBefore,
    (C10_kinds_of_the_exceptions id specExample 3 6 12 memBefore NotFoundError
      (specExample_carbon_not_found id memBefore)).2.2.1⟩

/-- C11: two calls with the same material, request and capacity but
different contents of the caller memory throw the same exception or both
succeed; when they succeed they report the same plane count, the same buffer
slots below twice the plane count, the same five per-isotope outputs, the same
ranking value and the same redistribution flag. -/
theorem C11_independent_of_prior_memory (wl2ekin : ℚ → ℚ) (info : Info) (maxb : Int)
    (z a : Nat) (mem1 mem2 : Outputs) :
    (generate_bragg_edges wl2ekin info maxb z a mem1).thrown
        = (generate_bragg_edges wl2ekin info maxb z a mem2).thrown
    ∧ ((generate_bragg_edges wl2ekin info maxb z a mem1).thrown = none →
        (generate_bragg_edges wl2ekin info maxb z a mem1).mem.nbragg
            = (generate_bragg_edges wl2ekin info maxb z a mem2).mem.nbragg
        ∧ (∀ j : Nat,
            (j : Int) < 2 * (generate_bragg_edges wl2ekin info maxb z a mem1).mem.nbragg →
            (generate_bragg_edges wl2ekin info maxb z a mem1).mem.data j
              = (generate_bragg_edges wl2ekin info maxb z a mem2).mem.data j)
        ∧ (generate_bragg_edges wl2ekin info maxb z a mem1).mem.c_incoherent_bound_xs
            = (generate_bragg_edges wl2ekin info maxb z a mem2).mem.c_incoherent_bound_xs
        ∧ (generate_bragg_edges wl2ekin info maxb z a mem1).mem.c_coherent_bound_xs
            = (generate_bragg_edges wl2ekin info maxb z a mem2).mem.c_coherent_bound_xs
        ∧ (generate_bragg_edges wl2ekin info maxb z a mem1).mem.c_spr
            = (generate_bragg_edges wl2ekin info maxb z a mem2).mem.c_spr
        ∧ (generate_bragg_edges wl2ekin info maxb z a mem1).mem.c_ncrystal_msd
            = (generate_bragg_edges wl2ekin info maxb z a mem2).mem.c_ncrystal_msd
        ∧ (generate_bragg_edges wl2ekin info maxb z a mem1).mem.c_fraction
            = (generate_bragg_edges wl2ekin info maxb z a mem2).mem.c_fraction
        ∧ (generate_bragg_edges wl2ekin info maxb z a mem1).mem.c_incoherent_fraction
            = (generate_bragg_edges wl2ekin info maxb z a mem2).mem.c_incoherent_fraction
        ∧ (generate_bragg_edges wl2ekin info maxb z a mem1).mem.c_redistribute_this
            = (generate_bragg_edges wl2ekin info maxb z a mem2).mem.c_redistribute_this) := by
  have hthrown : (generate_bragg_edges wl2ekin info maxb z a mem1).thrown
      = (generate_bragg_edges wl2ekin info maxb z a mem2).thrown := by
    rw [thrown_eq, thrown_eq, scanAll_nfound_mod info z a mem1, scanAll_nfound_mod info z a mem2]
  refine ⟨hthrown, ?_⟩
  intro hok1
  have hok2 := hthrown ▸ hok1
  obtain ⟨hsc, hn1, _⟩ := success_inv wl2ekin info maxb z a mem1 hok1
  obtain ⟨hb1, hd1⟩ := success_mem wl2ekin info maxb z a mem1 hok1
  obtain ⟨hb2, hd2⟩ := success_mem wl2ekin info maxb z a mem2 hok2
  obtain ⟨hs1, hf1⟩ := success_scalars wl2ekin info maxb z a mem1 hok1
  obtain ⟨hs2, hf2⟩ := success_scalars wl2ekin info maxb z a mem2 hok2
  have hrank := scanAll_ranking_indep info z a z a mem1 mem2
  simp only [ranking, Prod.mk.injEq] at hrank
  have hcap : captured (generate_bragg_edges wl2ekin info maxb z a mem1).mem
      = captured (generate_bragg_edges wl2ekin info maxb z a mem2).mem := by
    rw [mem_captured wl2ekin info maxb z a mem1 hsc, mem_captured wl2ekin info maxb z a mem2 hsc]
    exact scanAll_captured_indep info z a mem1 mem2
      (exists_match_of_nfound info z a mem1 (by rw [hn1]; decide))
  simp only [captured, Prod.mk.injEq] at hcap
  refine ⟨by rw [hb1, hb2], ?_, hcap.1, hcap.2.1, hcap.2.2.1, hcap.2.2.2.1, hcap.2.2.2.2,
    by rw [hs1, hs2, hrank.1], by rw [hf1, hf2, hrank.2.1, hrank.2.2]⟩
  intro j hj
  rw [hd1, hd2]
  apply tabulate_indep
  rw [hb1] at hj
  exact lt_of_lt_twice_toInt32 info.nHKL j hj

/-- Witness of C11: the example of the spec run on two different memories
succeeds on both with the same plane count and the same ranking value. -/
theorem C11_independent_of_prior_memory_witness :
    (generate_bragg_edges id specExample 3 1 0 memBefore).thrown = none
    ∧ (generate_bragg_edges id specExample 3 1 0 memBefore).thrown
        = (generate_bragg_edges id specExample 3 1 0 memOther).thrown
    ∧ (generate_bragg_edges id specExample 3 1 0 memBefore).mem.nbragg
        = (generate_bragg_edges id specExample 3 1 0 memOther).mem.nbragg
    ∧ (generate_bragg_edges id specExample 3 1 0 memBefore).mem.c_incoherent_fraction
        = (generate_bragg_edges id specExample 3 1 0 memOther).mem.c_incoherent_fraction :=
  ⟨specExample_succeeds id memBefore,
    (C11_independent_of_prior_memory id specExample 3 1 0 memBefore memOther).1,
    ((C11_independent_of_prior_memory id specExample 3 1 0 memBefore memOther).2
      (specExample_succeeds id memBefore)).1,
    ((C11_independent_of_prior_memory id specExample 3 1 0 memBefore memOther).2
      (specExample_succeeds id memBefore)).2.2.2.2.2.2.2.1⟩

/-- C12: for a material that is not a single crystal and whose scanned
components are exactly one component `c`, if `c` matches the request and the
capacity is sufficient, the call succeeds with the redistribution flag set and
with the ranking value equal to the normalized incoherent contribution of `c`;
the plane count is the length of the plane list and the five per-isotope
outputs are those of `c`.  The ranking value is the quotient proper: times
`1 - fraction` it gives `fraction * incoherentXS`.  (The fraction of `c` is
below `1`, `c` is not classified both as a single isotope and as a natural
element, and `maxb` is an `int`.) -/
theorem C12_single_component (wl2ekin : ℚ → ℚ) (info : Info) (maxb : Int) (z a : Nat)
    (mem : Outputs) (c : DynamicInfo)
    (hsc : info.isSingleCrystal = false) (hlist : scanned info = [c])
    (hm : matchesRequest z a c = true) (hfr : c.fraction < 1) (hex : ExclusiveClass c)
    (hint : IsInt32 maxb) (hcap : maxb > 2 * (info.nHKL : Int)) :
    (generate_bragg_edges wl2ekin info maxb z a mem).thrown = none
    ∧ (generate_bragg_edges wl2ekin info maxb z a mem).mem.c_redistribute_this = 1
    ∧ (generate_bragg_edges wl2ekin info maxb z a mem).mem.c_incoherent_fraction
        = normalizedContribution c
    ∧ (generate_bragg_edges wl2ekin info maxb z a mem).mem.nbragg = (info.hklList.length : Int)
    ∧ (generate_bragg_edges wl2ekin info maxb z a mem).mem.c_incoherent_bound_xs
        = c.atomData.incoherentXS
    ∧ (generate_bragg_edges wl2ekin info maxb z a mem).mem.c_coherent_bound_xs
        = c.atomData.coherentXS
    ∧ (generate_bragg_edges wl2ekin info maxb z a mem).mem.c_spr = c.atomData.freeScatteringXS
    ∧ (generate_bragg_edges wl2ekin info maxb z a mem).mem.c_fraction = c.fraction
    ∧ (generate_bragg_edges wl2ekin info maxb z a mem).mem.c_incoherent_fraction
          * (1 - c.fraction)
        = c.fraction * c.atomData.incoherentXS := by
  have hp := planesFit_of_capacity info maxb hint hcap
  have hcount : matchCount info z a = 1 := by
    unfold matchCount; rw [hlist]; simp [hm]
  have hv : c.isVDOS = true := by
    have hc : c ∈ scanned info := by rw [hlist]; exact List.mem_singleton.mpr rfl
    unfold scanned at hc
    simpa using (List.mem_filter.mp hc).2
  have hn : (scanAll info z a mem).nfound = 1 := by
    rw [scanAll_nfound_mod, countP_scanMatch, hcount]
  have hok : (generate_bragg_edges wl2ekin info maxb z a mem).thrown = none := by
    rw [thrown_eq, hsc, hn, twice_nHKL info hp]
    simp only [Bool.false_eq_true, if_false]
    rw [if_neg (by decide), if_neg (by decide), if_neg (by simpa using hcap)]
  have hrank : ranking (scanAll info z a mem) = rankingOf c := by
    rw [scanAll_eq_scanned, hlist]
    exact scanBody_init_ranking z a mem c hv
  rw [rankingOf, speciesOf_of_match z a c hm hex] at hrank
  simp only [ranking, Prod.mk.injEq] at hrank
  obtain ⟨hs, hf⟩ := success_scalars wl2ekin info maxb z a mem hok
  have hcap5 := mem_captured wl2ekin info maxb z a mem hsc
  rw [scanAll_captured_unique info z a mem hcount c (by rw [hlist]; exact List.mem_singleton.mpr rfl)
    hm] at hcap5
  simp only [captured, capturedOf, Prod.mk.injEq] at hcap5
  refine ⟨hok, ?_, by rw [hs, hrank.1], ?_, hcap5.1, hcap5.2.1, hcap5.2.2.1, hcap5.2.2.2.2,
    ?_⟩
  · rw [hf, if_pos ⟨hrank.2.1, hrank.2.2⟩]
  · rw [(success_mem wl2ekin info maxb z a mem hok).1, toInt32_nHKL info hp]
  · rw [hs, hrank.1]
    exact normalizedContribution_mul c hfr

/-- Witness of C12 on the example of the spec: one plane, bound incoherent
`80`, bound coherent `1`, free-atom `81`, fraction `0.5`, flag set, ranking
value `0.5 / (1 - 0.5) * 80`. -/
theorem C12_single_component_witness :
    (specExample.isSingleCrystal = false ∧ scanned specExample = [hydrogen]
      ∧ matchesRequest 1 0 hydrogen = true ∧ hydrogen.fraction < 1 ∧ ExclusiveClass hydrogen
      ∧ IsInt32 3 ∧ (3 : Int) > 2 * (specExample.nHKL : Int))
    ∧ (generate_bragg_edges id specExample 3 1 0 memBefore).thrown = none
    ∧ (generate_bragg_edges id specExample 3 1 0 memBefore).mem.c_redistribute_this = 1
    ∧ (generate_bragg_edges id specExample 3 1 0 memBefore).mem.c_incoherent_fraction
        = normalizedContribution hydrogen
    ∧ (generate_bragg_edges id specExample 3 1 0 memBefore).mem.nbragg = 1
    ∧ (generate_bragg_edges id specExample 3 1 0 memBefore).mem.c_incoherent_bound_xs = 80
    ∧ (generate_bragg_edges id specExample 3 1 0 memBefore).mem.c_coherent_bound_xs = 1
    ∧ (generate_bragg_edges id specExample 3 1 0 memBefore).mem.c_spr = 81
    ∧ (generate_bragg_edges id specExample 3 1 0 memBefore).mem.c_fraction = 1 / 2
    ∧ (generate_bragg_edges id specExample 3 1 0 memBefore).mem.c_incoherent_fraction
          * (1 - hydrogen.fraction)
        = hydrogen.fraction * hydrogen.atomData.incoherentXS :=
  ⟨⟨rfl, rfl, by decide, hydrogen_fraction_lt_one, by decide, by decide, by decide⟩,
    C12_single_component id specExample 3 1 0 memBefore hydrogen rfl rfl (by decide)
      hydrogen_fraction_lt_one (by decide) (by decide) (by decide)⟩

/-- C13 (the code at the failing inputs): in the ranking example the second
component is not the first one processed and its normalized incoherent
contribution `3` is not below the stored `2`, yet it replaces the candidate;
in the tie example both components have the normalized contribution `2`, yet
the later one, `(8, 0)`, ends as the candidate. -/
theorem C13_replacement_test_is_not_on_the_normalized_value :
    ranking (scanBody 1 0 (scanInit memBefore) lightComponent) = (2, 1, 0)
    ∧ normalizedContribution heavyComponent = 3
    ∧ ranking (scanBody 1 0 (scanBody 1 0 (scanInit memBefore) lightComponent) heavyComponent)
        = (3, 8, 0)
    ∧ normalizedContribution lightComponent = normalizedContribution lightTwin
    ∧ ranking (scanAll tieExample 1 0 memBefore) = (2, 8, 0) := by
  refine ⟨?_, ?_, ?_, ?_, ?_⟩
  · simp [ranking, scanInit, scanBody, rankStep, matchStep, lightComponent, memBefore]
    norm_num
  · simp [normalizedContribution, heavyComponent]
    norm_num
  · simp [ranking, scanInit, scanBody, rankStep, matchStep, lightComponent, heavyComponent,
      memBefore]
    norm_num
  · simp [normalizedContribution, lightComponent, lightTwin]
  · simp [ranking, scanAll, tieExample, scanInit, scanBody, rankStep, matchStep, lightComponent,
      lightTwin, memBefore]
    norm_num

/-- C14: on a successful call the plane count `n` is the length of the plane
list; slot `2 i` of the buffer holds the energy of plane `i` and slot
`2 i + 1` its weighted cross section, for every `i < n`; every index below
`2 n` is below `maxb`; and every slot at an index `≥ 2 n` holds what it held
before the call.  (`2 * n` does not overflow.) -/
theorem C14_buffer_layout (wl2ekin : ℚ → ℚ) (info : Info) (maxb : Int) (z a : Nat)
    (mem : Outputs) (hp : PlanesFit info)
    (hok : (generate_bragg_edges wl2ekin info maxb z a mem).thrown = none) :
    (generate_bragg_edges wl2ekin info maxb z a mem).mem.nbragg = (info.hklList.length : Int)
    ∧ (∀ (i : Nat) (hi : i < info.hklList.length),
        (generate_bragg_edges wl2ekin info maxb z a mem).mem.data (2 * i)
            = wl2ekin (2 * info.hklList[i].dspacing)
        ∧ (generate_bragg_edges wl2ekin info maxb z a mem).mem.data (2 * i + 1)
            = wl2ekin (2 * info.hklList[i].dspacing) * info.hklList[i].fsquared
                * (info.hklList[i].multiplicity : ℚ) * info.hklList[i].dspacing
                * (0.5 / (info.volume * info.n_atoms)) * (2 * info.hklList[i].dspacing) ^ 2)
    ∧ (∀ j : Nat, j < 2 * info.hklList.length → (j : Int) < maxb)
    ∧ (∀ j : Nat, 2 * info.hklList.length ≤ j →
        (generate_bragg_edges wl2ekin info maxb z a mem).mem.data j = mem.data j) := by
  obtain ⟨_, _, hcap⟩ := success_inv wl2ekin info maxb z a mem hok
  obtain ⟨hn, hd⟩ := success_mem wl2ekin info maxb z a mem hok
  obtain ⟨hpairs, hrest⟩ := tabulate_layout wl2ekin info mem.data
  rw [hd]
  exact ⟨by rw [hn, toInt32_nHKL info hp], hpairs,
    fun j hj => index_below_capacity info maxb hp hcap j hj, hrest⟩

/-- Witness of C14 on the example of the spec with capacity `3`: slots `0`
and `1` are below the capacity and slot `2` keeps the `7` it held. -/
theorem C14_buffer_layout_witness :
    (PlanesFit specExample
      ∧ (generate_bragg_edges id specExample 3 1 0 memBefore).thrown = none)
    ∧ (generate_bragg_edges id specExample 3 1 0 memBefore).mem.nbragg = 1
    ∧ ((1 : Nat) : Int) < 3
    ∧ (generate_bragg_edges id specExample 3 1 0 memBefore).mem.data 2 = 7 :=
  ⟨⟨by decide, specExample_succeeds id memBefore⟩,
    (C14_buffer_layout id specExample 3 1 0 memBefore (by decide)
      (specExample_succeeds id memBefore)).1,
    (C14_buffer_layout id specExample 3 1 0 memBefore (by decide)
      (specExample_succeeds id memBefore)).2.2.1 1 (by decide),
    (C14_buffer_layout id specExample 3 1 0 memBefore (by decide)
      (specExample_succeeds id memBefore)).2.2.2 2 (by decide)⟩

/-- C15: for every reordering of the component list the call throws the
same exception, or succeeds on both orders with the same five per-isotope
outputs, the same plane count and the same buffer.  (The component list is
shorter than `2^32`.) -/
theorem C15_order_of_components (wl2ekin : ℚ → ℚ) (info : Info) (maxb : Int) (z a : Nat)
    (mem : Outputs) (l : List DynamicInfo)
    (hperm : info.getDynamicInfoList.Perm l) (hfit : ComponentsFit info) :
    (generate_bragg_edges wl2ekin (withComponents info l) maxb z a mem).thrown
        = (generate_bragg_edges wl2ekin info maxb z a mem).thrown
    ∧ ((generate_bragg_edges wl2ekin info maxb z a mem).thrown = none →
        (generate_bragg_edges wl2ekin (withComponents info l) maxb z a mem).mem.c_incoherent_bound_xs
            = (generate_bragg_edges wl2ekin info maxb z a mem).mem.c_incoherent_bound_xs
        ∧ (generate_bragg_edges wl2ekin (withComponents info l) maxb z a mem).mem.c_coherent_bound_xs
            = (generate_bragg_edges wl2ekin info maxb z a mem).mem.c_coherent_bound_xs
        ∧ (generate_bragg_edges wl2ekin (withComponents info l) maxb z a mem).mem.c_spr
            = (generate_bragg_edges wl2ekin info maxb z a mem).mem.c_spr
        ∧ (generate_bragg_edges wl2ekin (withComponents info l) maxb z a mem).mem.c_ncrystal_msd
            = (generate_bragg_edges wl2ekin info maxb z a mem).mem.c_ncrystal_msd
        ∧ (generate_bragg_edges wl2ekin (withComponents info l) maxb z a mem).mem.c_fraction
            = (generate_bragg_edges wl2ekin info maxb z a mem).mem.c_fraction
        ∧ (generate_bragg_edges wl2ekin (withComponents info l) maxb z a mem).mem.nbragg
            = (generate_bragg_edges wl2ekin info maxb z a mem).mem.nbragg
        ∧ (generate_bragg_edges wl2ekin (withComponents info l) maxb z a mem).mem.data
            = (generate_bragg_edges wl2ekin info maxb z a mem).mem.data) := by
  have hfit2 : ComponentsFit (withComponents info l) := by
    unfold ComponentsFit withComponents
    unfold ComponentsFit at hfit
    rw [← hperm.length_eq]; exact hfit
  have hcount := matchCount_perm info l z a hperm
  have hthrown : (generate_bragg_edges wl2ekin (withComponents info l) maxb z a mem).thrown
      = (generate_bragg_edges wl2ekin info maxb z a mem).thrown := by
    rw [thrown_eq, thrown_eq, scanAll_nfound info z a mem hfit,
      scanAll_nfound (withComponents info l) z a mem hfit2, hcount]
    rfl
  refine ⟨hthrown, ?_⟩
  intro hok
  have hok2 := hthrown.trans hok
  obtain ⟨hsc, hn, _⟩ := success_inv wl2ekin info maxb z a mem hok
  have h1 : matchCount info z a = 1 := by rw [← scanAll_nfound info z a mem hfit, hn]
  have h2 : matchCount (withComponents info l) z a = 1 := hcount.trans h1
  obtain ⟨c, hc, hm⟩ : ∃ c ∈ scanned info, matchesRequest z a c = true := by
    apply List.countP_pos_iff.mp
    unfold matchCount at h1
    rw [h1]; decide
  have hc2 : c ∈ scanned (withComponents info l) := by
    unfold scanned withComponents
    unfold scanned at hc
    exact (hperm.filter _).mem_iff.mp hc
  have e1 := mem_captured wl2ekin info maxb z a mem hsc
  rw [scanAll_captured_unique info z a mem h1 c hc hm] at e1
  have e2 := mem_captured wl2ekin (withComponents info l) maxb z a mem hsc
  rw [scanAll_captured_unique (withComponents info l) z a mem h2 c hc2 hm, ← e1] at e2
  simp only [captured, Prod.mk.injEq] at e2
  obtain ⟨hb1, hd1⟩ := success_mem wl2ekin info maxb z a mem hok
  obtain ⟨hb2, hd2⟩ := success_mem wl2ekin (withComponents info l) maxb z a mem hok2
  exact ⟨e2.1, e2.2.1, e2.2.2.1, e2.2.2.2.1, e2.2.2.2.2, hb2.trans hb1.symm,
    hd2.trans hd1.symm⟩

/-- Witness of C15: the ranking example with its two components swapped. -/
theorem C15_order_of_components_witness :
    (rankingExample.getDynamicInfoList.Perm [heavyComponent, lightComponent]
      ∧ ComponentsFit rankingExample)
    ∧ (generate_bragg_edges id (withComponents rankingExample [heavyComponent, lightComponent])
        3 1 0 memBefore).thrown
        = (generate_bragg_edges id rankingExample 3 1 0 memBefore).thrown :=
  ⟨⟨List.Perm.swap _ _ _, by decide⟩,
    (C15_order_of_components id rankingExample 3 1 0 memBefore [heavyComponent, lightComponent]
      (List.Perm.swap _ _ _) (by decide)).1⟩

/-- C16: removing the components that are not element-type changes neither
the match count, nor the exception thrown (or the success), nor the five
per-isotope outputs; but it can change the ranking: in the mixture example the
call succeeds with ranking value `2` and candidate `(0, 0)`, and without the
mixture with ranking value `80` and candidate `(1, 0)`. -/
theorem C16_non_element_components (wl2ekin : ℚ → ℚ) (info : Info) (maxb : Int) (z a : Nat)
    (mem : Outputs) :
    (matchCount (elementsOnly info) z a = matchCount info z a
      ∧ (generate_bragg_edges wl2ekin (elementsOnly info) maxb z a mem).thrown
          = (generate_bragg_edges wl2ekin info maxb z a mem).thrown
      ∧ captured (generate_bragg_edges wl2ekin (elementsOnly info) maxb z a mem).mem
          = captured (generate_bragg_edges wl2ekin info maxb z a mem).mem)
    ∧ ((generate_bragg_edges id mixtureExample 3 1 0 memBefore).thrown = none
      ∧ (generate_bragg_edges id (elementsOnly mixtureExample) 3 1 0 memBefore).thrown = none
      ∧ (generate_bragg_edges id mixtureExample 3 1 0 memBefore).mem.c_incoherent_fraction = 2
      ∧ (generate_bragg_edges id (elementsOnly mixtureExample) 3 1 0
          memBefore).mem.c_incoherent_fraction = 80
      ∧ ranking (scanAll mixtureExample 1 0 memBefore) = (2, 0, 0)
      ∧ ranking (scanAll (elementsOnly mixtureExample) 1 0 memBefore) = (80, 1, 0)) := by
  have hcount : matchCount (elementsOnly info) z a = matchCount info z a := by
    rw [← countP_scanMatch, ← countP_scanMatch, countP_scanMatch_elements]
  have hthrown : (generate_bragg_edges wl2ekin (elementsOnly info) maxb z a mem).thrown
      = (generate_bragg_edges wl2ekin info maxb z a mem).thrown := by
    rw [thrown_eq, thrown_eq, scanAll_nfound_mod, scanAll_nfound_mod,
      countP_scanMatch_elements]
    rfl
  have hcap : captured (generate_bragg_edges wl2ekin (elementsOnly info) maxb z a mem).mem
      = captured (generate_bragg_edges wl2ekin info maxb z a mem).mem := by
    cases hsc : info.isSingleCrystal
    · rw [mem_captured wl2ekin info maxb z a mem hsc,
        mem_captured wl2ekin (elementsOnly info) maxb z a mem hsc,
        scanAll_captured, scanAll_captured]
      unfold elementsOnly withComponents
      rw [filter_scanMatch_elements]
    · rw [mem_of_single_crystal wl2ekin info maxb z a mem hsc,
        mem_of_single_crystal wl2ekin (elementsOnly info) maxb z a mem hsc]
  have hsucc2 : (generate_bragg_edges id (elementsOnly mixtureExample) 3 1 0 memBefore).thrown
      = none := by
    rw [thrown_of_count id (elementsOnly mixtureExample) 3 1 0 memBefore rfl (by decide)]
    decide
  refine ⟨⟨hcount, hthrown, hcap⟩, mixtureExample_succeeds id memBefore, hsucc2, ?_, ?_, ?_, ?_⟩
  · rw [(success_scalars id mixtureExample 3 1 0 memBefore
      (mixtureExample_succeeds id memBefore)).1]
    simp [scanAll, mixtureExample, scanInit, scanBody, rankStep, matchStep, hydrogen, mixture,
      memBefore]
    norm_num
  · rw [(success_scalars id (elementsOnly mixtureExample) 3 1 0 memBefore hsucc2).1]
    simp [scanAll, elementsOnly, withComponents, mixtureExample, scanInit, scanBody, rankStep,
      matchStep, hydrogen, mixture, memBefore]
    norm_num
  · simp [ranking, scanAll, mixtureExample, scanInit, scanBody, rankStep, matchStep, hydrogen,
      mixture, memBefore]
    norm_num
  · simp [ranking, scanAll, elementsOnly, withComponents, mixtureExample, scanInit, scanBody,
      rankStep, matchStep, hydrogen, mixture, memBefore]
    norm_num

/-- C17: for a material that is not a single crystal, with an insufficient
capacity (`maxb ≤ 2 * planeCount`), zero matches give the not-found exception
and two or more the ambiguous-match exception; a match count other than one
never gives the capacity exception, which is thrown when the count is one.
(The component list is shorter than `2^32`; `2 * n` does not overflow.) -/
theorem C17_validation_before_tabulation (wl2ekin : ℚ → ℚ) (info : Info) (maxb : Int)
    (z a : Nat) (mem : Outputs)
    (hsc : info.isSingleCrystal = false) (hfit : ComponentsFit info) (hp : PlanesFit info)
    (hcap : maxb ≤ 2 * (info.nHKL : Int)) :
    (matchCount info z a = 0 →
        (generate_bragg_edges wl2ekin info maxb z a mem).thrown = some NotFoundError)
    ∧ (2 ≤ matchCount info z a →
        (generate_bragg_edges wl2ekin info maxb z a mem).thrown = some AmbiguousMatchError)
    ∧ (matchCount info z a ≠ 1 →
        (generate_bragg_edges wl2ekin info maxb z a mem).thrown ≠ some CapacityError)
    ∧ (matchCount info z a = 1 →
        (generate_bragg_edges wl2ekin info maxb z a mem).thrown = some CapacityError) := by
  have key := thrown_of_count wl2ekin info maxb z a mem hsc hfit
  rw [twice_nHKL info hp] at key
  have h0 : matchCount info z a = 0 →
      (generate_bragg_edges wl2ekin info maxb z a mem).thrown = some NotFoundError := by
    intro h; rw [key, if_pos h]
  have h2 : 2 ≤ matchCount info z a →
      (generate_bragg_edges wl2ekin info maxb z a mem).thrown = some AmbiguousMatchError := by
    intro h; rw [key, if_neg (by omega), if_pos (by omega)]
  refine ⟨h0, h2, ?_, ?_⟩
  · intro hne
    rcases Nat.lt_or_ge (matchCount info z a) 1 with hlt | hge
    · rw [h0 (by omega)]; decide
    · rw [h2 (by omega)]; decide
  · intro h1
    rw [key, if_neg (by omega), if_neg (by omega), if_pos (by omega)]

/-- Witness of C17: with capacity `2` for one plane, carbon-12 requested from
the hydrogen-only example is not found, and hydrogen requested from the
material holding it twice is ambiguous. -/
theorem C17_validation_before_tabulation_witness :
    ((2 : Int) ≤ 2 * (specExample.nHKL : Int) ∧ matchCount specExample 6 12 = 0
      ∧ 2 ≤ matchCount twoHydrogens 1 0)
    ∧ (generate_bragg_edges id specExample 2 6 12 memBefore).thrown = some NotFoundError
    ∧ (generate_bragg_edges id twoHydrogens 2 1 0 memBefore).thrown
        = some AmbiguousMatchError :=
  ⟨⟨by decide, by decide, by decide⟩,
    (C17_validation_before_tabulation id specExample 2 6 12 memBefore rfl (by decide)
      (by decide) (by decide)).1 (by decide),
    (C17_validation_before_tabulation id twoHydrogens 2 1 0 memBefore rfl (by decide)
      (by decide) (by decide)).2.1 (by decide)⟩

/-- C18: on a successful call that sets the redistribution flag, when every
scanned component is element-type and classified as exactly one of single
isotope and natural element, the ranking candidate is the matching component,
and the reported ranking value is `0` for a zero reported fraction and
`fraction / (1 - fraction) * boundIncoherentXS` otherwise, the quotient
proper: times `1 - fraction` it gives `fraction * boundIncoherentXS`.  (Every
scanned component has a fraction below `1`, and the component list is shorter
than `2^32`.) -/
theorem C18_flagged_candidate_is_the_match (wl2ekin : ℚ → ℚ) (info : Info) (maxb : Int)
    (z a : Nat) (mem : Outputs) (hfit : ComponentsFit info)
    (hok : (generate_bragg_edges wl2ekin info maxb z a mem).thrown = none)
    (hflag : (generate_bragg_edges wl2ekin info maxb z a mem).mem.c_redistribute_this = 1)
    (hall : ∀ c ∈ scanned info, c.atomData.isElement = true
      ∧ c.atomData.isSingleIsotope ≠ c.atomData.isNaturalElement)
    (hfr : ∀ c ∈ scanned info, c.fraction < 1) :
    (∃ c ∈ scanned info, matchesRequest z a c = true
        ∧ ranking (scanAll info z a mem) = rankingOf c)
    ∧ ((generate_bragg_edges wl2ekin info maxb z a mem).mem.c_incoherent_fraction
        = if (generate_bragg_edges wl2ekin info maxb z a mem).mem.c_fraction = 0 then 0
          else (generate_bragg_edges wl2ekin info maxb z a mem).mem.c_fraction
            / (1 - (generate_bragg_edges wl2ekin info maxb z a mem).mem.c_fraction)
            * (generate_bragg_edges wl2ekin info maxb z a mem).mem.c_incoherent_bound_xs)
    ∧ (generate_bragg_edges wl2ekin info maxb z a mem).mem.c_incoherent_fraction
          * (1 - (generate_bragg_edges wl2ekin info maxb z a mem).mem.c_fraction)
        = (generate_bragg_edges wl2ekin info maxb z a mem).mem.c_fraction
          * (generate_bragg_edges wl2ekin info maxb z a mem).mem.c_incoherent_bound_xs := by
  obtain ⟨hsc, hn, _⟩ := success_inv wl2ekin info maxb z a mem hok
  have h1 : matchCount info z a = 1 := by rw [← scanAll_nfound info z a mem hfit, hn]
  obtain ⟨c, hc, hrank⟩ := success_ranking_exists wl2ekin info maxb z a mem hok
  obtain ⟨hs, hf⟩ := success_scalars wl2ekin info maxb z a mem hok
  have hcond : (scanAll info z a mem).minimum_incoherent_contribution_Z = z
      ∧ (scanAll info z a mem).minimum_incoherent_contribution_A = a := by
    by_contra hnot
    rw [hf, if_neg hnot] at hflag
    exact absurd hflag (by decide)
  have hr := hrank
  simp only [ranking, rankingOf, Prod.mk.injEq] at hr
  have hsp : speciesOf c = (z, a) := by
    rw [← hr.2, Prod.mk.injEq]
    exact hcond
  have hm : matchesRequest z a c = true :=
    match_of_speciesOf z a c (hall c hc).1 (hall c hc).2 hsp
  have hcap := mem_captured wl2ekin info maxb z a mem hsc
  rw [scanAll_captured_unique info z a mem h1 c hc hm] at hcap
  simp only [captured, capturedOf, Prod.mk.injEq] at hcap
  refine ⟨⟨c, hc, hm, hrank⟩, ?_, ?_⟩
  · rw [hs, hr.1, hcap.1, hcap.2.2.2.2]
    rfl
  · rw [hs, hr.1, hcap.1, hcap.2.2.2.2]
    exact normalizedContribution_mul c (hfr c hc)

/-- Witness of C18 on the example of the spec: the flag is set and the
ranking value is the one computed from the reported fraction and bound
incoherent cross section. -/
theorem C18_flagged_candidate_is_the_match_witness :
    (ComponentsFit specExample
      ∧ (generate_bragg_edges id specExample 3 1 0 memBefore).thrown = none
      ∧ (generate_bragg_edges id specExample 3 1 0 memBefore).mem.c_redistribute_this = 1
      ∧ ∀ c ∈ scanned specExample, c.fraction < 1)
    ∧ (generate_bragg_edges id specExample 3 1 0 memBefore).mem.c_incoherent_fraction
        = if (generate_bragg_edges id specExample 3 1 0 memBefore).mem.c_fraction = 0 then 0
          else (generate_bragg_edges id specExample 3 1 0 memBefore).mem.c_fraction
            / (1 - (generate_bragg_edges id specExample 3 1 0 memBefore).mem.c_fraction)
            * (generate_bragg_edges id specExample 3 1 0 memBefore).mem.c_incoherent_bound_xs :=
  have hflag : (generate_bragg_edges id specExample 3 1 0 memBefore).mem.c_redistribute_this
      = 1 := by
    rw [(success_scalars id specExample 3 1 0 memBefore (specExample_succeeds id memBefore)).2]
    simp [scanAll, specExample, scanInit, scanBody, rankStep, matchStep, hydrogen, memBefore]
  have hfr : ∀ c ∈ scanned specExample, c.fraction < 1 := by
    intro c hc
    rw [mem_scanned_specExample c hc]
    exact hydrogen_fraction_lt_one
  ⟨⟨by decide, specExample_succeeds id memBefore, hflag, hfr⟩,
    (C18_flagged_candidate_is_the_match id specExample 3 1 0 memBefore (by decide)
      (specExample_succeeds id memBefore) hflag
      (by intro c hc
          have : c = hydrogen := mem_scanned_specExample c hc
          rw [this]; decide) hfr).2.1⟩

/-- C19: when every scanned component has a fraction in `[0, 1)` and an
incoherent cross section that is not negative, a successful call reports a
ranking value that is not negative (so not the initial `-1`) and is the
normalized incoherent contribution of some scanned component; the recorded
candidate is the `(Z, A)` of that component, `A` read as `0` for a natural
element. -/
theorem C19_no_unset_mark_on_success (wl2ekin : ℚ → ℚ) (info : Info) (maxb : Int)
    (z a : Nat) (mem : Outputs)
    (hok : (generate_bragg_edges wl2ekin info maxb z a mem).thrown = none)
    (hrange : ∀ c ∈ scanned info,
      0 ≤ c.fraction ∧ c.fraction < 1 ∧ 0 ≤ c.atomData.incoherentXS) :
    0 ≤ (generate_bragg_edges wl2ekin info maxb z a mem).mem.c_incoherent_fraction
    ∧ (generate_bragg_edges wl2ekin info maxb z a mem).mem.c_incoherent_fraction ≠ -1
    ∧ ∃ c ∈ scanned info,
        (generate_bragg_edges wl2ekin info maxb z a mem).mem.c_incoherent_fraction
            = normalizedContribution c
        ∧ (scanAll info z a mem).minimum_incoherent_contribution_Z = c.atomData.Z
        ∧ (scanAll info z a mem).minimum_incoherent_contribution_A
            = if c.atomData.isNaturalElement then 0 else c.atomData.A := by
  obtain ⟨c, hc, hrank⟩ := success_ranking_exists wl2ekin info maxb z a mem hok
  obtain ⟨hs, _⟩ := success_scalars wl2ekin info maxb z a mem hok
  simp only [ranking, rankingOf, speciesOf, Prod.mk.injEq] at hrank
  obtain ⟨h0, h1, hx⟩ := hrange c hc
  have hnn := normalizedContribution_nonneg c h0 h1 hx
  rw [hs, hrank.1]
  refine ⟨hnn, ?_, c, hc, rfl, hrank.2.1, hrank.2.2⟩
  intro hneg
  rw [hneg] at hnn
  exact absurd hnn (by norm_num)

/-- Witness of C19 on the example of the spec. -/
theorem C19_no_unset_mark_on_success_witness :
    ((generate_bragg_edges id specExample 3 1 0 memBefore).thrown = none
      ∧ ∀ c ∈ scanned specExample,
          0 ≤ c.fraction ∧ c.fraction < 1 ∧ 0 ≤ c.atomData.incoherentXS)
    ∧ 0 ≤ (generate_bragg_edges id specExample 3 1 0 memBefore).mem.c_incoherent_fraction
    ∧ (generate_bragg_edges id specExample 3 1 0 memBefore).mem.c_incoherent_fraction ≠ -1 :=
  have hrange : ∀ c ∈ scanned specExample,
      0 ≤ c.fraction ∧ c.fraction < 1 ∧ 0 ≤ c.atomData.incoherentXS := by
    intro c hc
    have : c = hydrogen := mem_scanned_specExample c hc
    rw [this]
    simp only [hydrogen]
    norm_num
  ⟨⟨specExample_succeeds id memBefore, hrange⟩,
    (C19_no_unset_mark_on_success id specExample 3 1 0 memBefore
      (specExample_succeeds id memBefore) hrange).1,
    (C19_no_unset_mark_on_success id specExample 3 1 0 memBefore
      (specExample_succeeds id memBefore) hrange).2.1⟩

/-- C20: a call that throws, whatever the exception, leaves the plane count
and every slot of the buffer as they were; so a call after which the plane
count or a buffer slot differs has passed the single-crystal check, the
match-count validation and the capacity check. -/
theorem C20_failure_leaves_count_and_buffer (wl2ekin : ℚ → ℚ) (info : Info) (maxb : Int)
    (z a : Nat) (mem : Outputs) :
    ((generate_bragg_edges wl2ekin info maxb z a mem).thrown ≠ none →
        (generate_bragg_edges wl2ekin info maxb z a mem).mem.nbragg = mem.nbragg
        ∧ ∀ j : Nat, (generate_bragg_edges wl2ekin info maxb z a mem).mem.data j = mem.data j)
    ∧ ((generate_bragg_edges wl2ekin info maxb z a mem).mem.nbragg ≠ mem.nbragg
        ∨ (∃ j : Nat, (generate_bragg_edges wl2ekin info maxb z a mem).mem.data j ≠ mem.data j) →
        info.isSingleCrystal = false ∧ (scanAll info z a mem).nfound = 1
        ∧ maxb > toInt32 (2 * toInt32 (info.nHKL : Int))) := by
  have hframe : (generate_bragg_edges wl2ekin info maxb z a mem).thrown ≠ none →
      (generate_bragg_edges wl2ekin info maxb z a mem).mem.nbragg = mem.nbragg
      ∧ ∀ j : Nat, (generate_bragg_edges wl2ekin info maxb z a mem).mem.data j = mem.data j := by
    intro hfail
    obtain ⟨hn, hd⟩ := failure_frame wl2ekin info maxb z a mem hfail
    exact ⟨hn, fun j => by rw [hd]⟩
  refine ⟨hframe, ?_⟩
  intro hchg
  apply success_inv wl2ekin info maxb z a mem
  by_contra hfail
  obtain ⟨hn, hd⟩ := hframe hfail
  rcases hchg with h | ⟨j, hj⟩
  · exact h hn
  · exact hj (hd j)

/-- Witness of C20: carbon-12 requested from the hydrogen-only example fails
and leaves the plane count `7` and the buffer slot `0` as they were. -/
theorem C20_failure_leaves_count_and_buffer_witness :
    (generate_bragg_edges id specExample 3 6 12 memBefore).thrown ≠ none
    ∧ (generate_bragg_edges id specExample 3 6 12 memBefore).mem.nbragg = memBefore.nbragg
    ∧ (generate_bragg_edges id specExample 3 6 12 memBefore).mem.data 0 = memBefore.data 0 :=
  have hfail : (generate_bragg_edges id specExample 3 6 12 memBefore).thrown ≠ none := by
    rw [specExample_carbon_not_found]; decide
  ⟨hfail,
    ((C20_failure_leaves_count_and_buffer id specExample 3 6 12 memBefore).1 hfail).1,
    ((C20_failure_leaves_count_and_buffer id specExample 3 6 12 memBefore).1 hfail).2 0⟩

end NCrystalBragg
